import Mathlib

/-!
Verification of the `infinitier` Infinity-Engine resource loader.

The Rust sources are shallowly embedded: byte streams are `List Nat`
(each element a byte value, reads reduce values `% 256`), machine
integers are `Nat` with explicit `% 2 ^ w` where wrap-around matters,
and fallible Rust code returns `RRes`.  Debug-mode checked arithmetic
(underflow and overflow panics) and out-of-bounds indexing are modelled
by the `fatal` outcome, `Err(io::Error)` by `err`.  Strings read from
files are decoded with WINDOWS-1252, which is total and injective on
bytes, so decoded strings are modelled by their byte sequences
(`List Nat`); `had_errors` is never set for this charset.
-/

set_option maxHeartbeats 1000000

namespace Infinitier

/-- Outcome of running a piece of Rust code: `ok` is a normal return,
`err` is `Err(io::Error)`, `fatal` is a Rust panic. -/
inductive RRes (α : Type) where
  | ok (a : α)
  | err (msg : String)
  | fatal (msg : String)
deriving Repr, DecidableEq

namespace RRes

def bind {α β : Type} : RRes α → (α → RRes β) → RRes β
  | .ok a, f => f a
  | .err m, _ => .err m
  | .fatal m, _ => .fatal m

def map {α β : Type} (f : α → β) : RRes α → RRes β
  | .ok a => .ok (f a)
  | .err m => .err m
  | .fatal m => .fatal m

def isOk {α : Type} : RRes α → Bool
  | .ok _ => true
  | _ => false

def isFatal {α : Type} : RRes α → Bool
  | .fatal _ => true
  | _ => false

end RRes

/-- Rust checked subtraction: debug-mode `a - b` on an unsigned integer
panics when the result would underflow. -/
def checkedSub (a b : Nat) : RRes Nat :=
  if b ≤ a then .ok (a - b) else .fatal "attempt to subtract with overflow"

/-- Rust checked multiplication on `u32`. -/
def checkedMulU32 (a b : Nat) : RRes Nat :=
  if a * b < 4294967296 then .ok (a * b)
  else .fatal "attempt to multiply with overflow"

/-- The state of a `Reader`: the underlying byte stream plus the cursor
position (`Seek`/`stream_position`). -/
structure ReaderState where
  data : List Nat
  pos : Nat
deriving Repr, DecidableEq

namespace Reader

/-- `read_exact::<N>`: exactly `n` bytes from the cursor, `io::Error` on a
short read. -/
def read_exact (n : Nat) (s : ReaderState) : RRes (List Nat × ReaderState) :=
  if s.pos + n ≤ s.data.length then
    .ok (((s.data.drop s.pos).take n).map (· % 256), { s with pos := s.pos + n })
  else
    .err "failed to fill whole buffer"

/-- `read_u8`. -/
def read_u8 (s : ReaderState) : RRes (Nat × ReaderState) :=
  (read_exact 1 s).bind fun (bs, s1) => .ok (bs.headI, s1)

/-- Little-endian value of a byte list (`from_le_bytes`). -/
def leVal : List Nat → Nat
  | [] => 0
  | b :: bs => b % 256 + 256 * leVal bs

/-- `read_u16`. -/
def read_u16 (s : ReaderState) : RRes (Nat × ReaderState) :=
  (read_exact 2 s).bind fun (bs, s1) => .ok (leVal bs, s1)

/-- `read_u32`. -/
def read_u32 (s : ReaderState) : RRes (Nat × ReaderState) :=
  (read_exact 4 s).bind fun (bs, s1) => .ok (leVal bs, s1)

/-- `read_u64`. -/
def read_u64 (s : ReaderState) : RRes (Nat × ReaderState) :=
  (read_exact 8 s).bind fun (bs, s1) => .ok (leVal bs, s1)

/-- Trailing-NUL stripping of `read_string` (`trim_end_matches('\0')`). -/
def stripTrailingNuls (l : List Nat) : List Nat :=
  (l.reverse.dropWhile (· == 0)).reverse

/-- `read_string(size)`: takes up to `size` bytes (`take(size).read_to_end`,
which does not fail on a short read), decodes them with WINDOWS-1252 (total,
never reports errors) and strips trailing NUL bytes. -/
def read_string (size : Nat) (s : ReaderState) : RRes (List Nat × ReaderState) :=
  let bytes := ((s.data.drop s.pos).take size).map (· % 256)
  .ok (stripTrailingNuls bytes, { s with pos := min (s.pos + size) s.data.length })

/-- `position()`. -/
def position (s : ReaderState) : RRes (Nat × ReaderState) := .ok (s.pos, s)

/-- `set_position(pos)` (`seek(SeekFrom::Start(pos))`); seeking past the
end of the stream is allowed, later reads fail. -/
def set_position (p : Nat) (s : ReaderState) : RRes (Nat × ReaderState) :=
  .ok (p, { s with pos := p })

/-- `read_u32_at(offset)`: seek then `read_u32`. -/
def read_u32_at (off : Nat) (s : ReaderState) : RRes (Nat × ReaderState) :=
  (set_position off s).bind fun (_, s1) => read_u32 s1

/-- `read_string_at(offset, size)`: seek then `read_string`. -/
def read_string_at (off size : Nat) (s : ReaderState) :
    RRes (List Nat × ReaderState) :=
  (set_position off s).bind fun (_, s1) => read_string size s1

/-- `ZipReader::skip(size)`: discards `size` bytes by repeated `read_u8`. -/
def skip (size : Nat) (s : ReaderState) : RRes (Unit × ReaderState) :=
  match size with
  | 0 => .ok ((), s)
  | n + 1 => (read_u8 s).bind fun (_, s1) => skip n s1

/-- The pure computation behind `read_line`: bytes up to and including the
next `\n` (or to end of stream), their count, and the advanced reader. -/
def read_lineF (s : ReaderState) : List Nat × Nat × ReaderState :=
  let rest := (s.data.drop s.pos).map (· % 256)
  let pre := rest.takeWhile (fun b => decide (b ≠ 10))
  let lineBytes := if pre.length < rest.length then pre ++ [10] else pre
  (lineBytes, lineBytes.length, { s with pos := s.pos + lineBytes.length })

/-- `read_line`: decoded line and the number of bytes read (0 means EOF). -/
def read_line (s : ReaderState) : RRes (List Nat × Nat × ReaderState) :=
  .ok (read_lineF s)

end Reader

/-! ### Byte-string helpers (`str::trim`, `to_lowercase`, `replace`) -/

/-- Bytes whose WINDOWS-1252 character is whitespace for
`char::is_whitespace` (0x09–0x0D, space, and 0xA0 = NBSP). -/
def isWsByte (b : Nat) : Bool :=
  b == 9 || b == 10 || b == 11 || b == 12 || b == 13 || b == 32 || b == 160

/-- `str::trim`: strip leading and trailing whitespace. -/
def trimBytes (l : List Nat) : List Nat :=
  ((l.dropWhile isWsByte).reverse.dropWhile isWsByte).reverse

/-- `str::to_lowercase` restricted to the ASCII and Latin-1 letter ranges
(the only ranges BIF file names use). -/
def lowerByte (b : Nat) : Nat :=
  if 65 ≤ b ∧ b ≤ 90 then b + 32
  else if 192 ≤ b ∧ b ≤ 222 ∧ b ≠ 215 then b + 32
  else b

/-- `str::replace` of one byte by another (used for `\` → `/`, `:` → `/`). -/
def replaceByte (old new : Nat) (l : List Nat) : List Nat :=
  l.map fun b => if b = old then new else b

/-- `str::replace(".bif", ".cbf")`: replace every occurrence of a byte
pattern, scanning left to right over non-overlapping matches. -/
def replaceSeq (pat rep : List Nat) (l : List Nat) : List Nat :=
  match l with
  | [] => []
  | b :: bs =>
    if h : pat ≠ [] ∧ (b :: bs).take pat.length = pat then
      rep ++ replaceSeq pat rep ((b :: bs).drop pat.length)
    else
      b :: replaceSeq pat rep bs
termination_by l.length
decreasing_by
  · have hp : 0 < pat.length := List.length_pos.mpr h.1
    simp only [List.length_drop, List.length_cons]
    omega
  · simp

/-- Byte of a list at an index (0 past the end), reduced to byte range.
Spec-side accessor used to state theorems about stream contents. -/
def byteAt (l : List Nat) (i : Nat) : Nat := l.getD i 0 % 256

/-- Little-endian `u32` at a byte offset of a stream (spec-side). -/
def leU32At (l : List Nat) (off : Nat) : Nat :=
  Reader.leVal ((l.drop off).take 4)

/-- `l[s..e]` of Rust: the byte slice over `[s, e)` (spec-side). -/
def sliceBytes (l : List Nat) (s e : Nat) : List Nat :=
  (l.drop s).take (e - s)

/-! ### The resource-type registry (`src/core/src/resource/key.rs`) -/

/-- `ResourceType`: 16-bit resource type codes with a catch-all variant. -/
inductive ResourceType where
  | Bmp | Mve | Wav | Wfx | Plt | Tga | Bam | Wed | Chu | Tis | Mos | Itm
  | Spl | Bcs | Ids | Cre | Are | Dlg | Two | Gam | Sto | Wmp | Eff | Bs
  | Chr | Vvc | Vef | Pro | Bio | Wbm | Fnt | Gui | Sql | Pvrz | Glsl | Tot
  | Toh | Menu | Lua | Ttf | Png | Bah | Ini | Src | Maze | Mus | Acm
  | Unknown (code : Nat)
deriving Repr, DecidableEq

namespace ResourceType

/-- `ResourceType::from` (`from` is a Lean keyword, hence `fromCode`). -/
def fromCode (bit : Nat) : ResourceType :=
  match bit with
  | 0x001 => .Bmp
  | 0x002 => .Mve
  | 0x004 => .Wav
  | 0x005 => .Wfx
  | 0x006 => .Plt
  | 0x3b8 => .Tga
  | 0x3e8 => .Bam
  | 0x3e9 => .Wed
  | 0x3ea => .Chu
  | 0x3eb => .Tis
  | 0x3ec => .Mos
  | 0x3ed => .Itm
  | 0x3ee => .Spl
  | 0x3ef => .Bcs
  | 0x3f0 => .Ids
  | 0x3f1 => .Cre
  | 0x3f2 => .Are
  | 0x3f3 => .Dlg
  | 0x3f4 => .Two
  | 0x3f5 => .Gam
  | 0x3f6 => .Sto
  | 0x3f7 => .Wmp
  | 0x3f8 => .Eff
  | 0x3f9 => .Bs
  | 0x3fa => .Chr
  | 0x3fb => .Vvc
  | 0x3fc => .Vef
  | 0x3fd => .Pro
  | 0x3fe => .Bio
  | 0x3ff => .Wbm
  | 0x400 => .Fnt
  | 0x402 => .Gui
  | 0x403 => .Sql
  | 0x404 => .Pvrz
  | 0x405 => .Glsl
  | 0x406 => .Tot
  | 0x407 => .Toh
  | 0x408 => .Menu
  | 0x409 => .Lua
  | 0x40a => .Ttf
  | 0x40b => .Png
  | 0x44c => .Bah
  | 0x802 => .Ini
  | 0x803 => .Src
  | 0x804 => .Maze
  | 0xffe => .Mus
  | 0xfff => .Acm
  | i => .Unknown i

/-- `ResourceType::to_u16`. -/
def to_u16 : ResourceType → Nat
  | .Bmp => 0x001
  | .Mve => 0x002
  | .Wav => 0x004
  | .Wfx => 0x005
  | .Plt => 0x006
  | .Tga => 0x3b8
  | .Bam => 0x3e8
  | .Wed => 0x3e9
  | .Chu => 0x3ea
  | .Tis => 0x3eb
  | .Mos => 0x3ec
  | .Itm => 0x3ed
  | .Spl => 0x3ee
  | .Bcs => 0x3ef
  | .Ids => 0x3f0
  | .Cre => 0x3f1
  | .Are => 0x3f2
  | .Dlg => 0x3f3
  | .Two => 0x3f4
  | .Gam => 0x3f5
  | .Sto => 0x3f6
  | .Wmp => 0x3f7
  | .Eff => 0x3f8
  | .Bs => 0x3f9
  | .Chr => 0x3fa
  | .Vvc => 0x3fb
  | .Vef => 0x3fc
  | .Pro => 0x3fd
  | .Bio => 0x3fe
  | .Wbm => 0x3ff
  | .Fnt => 0x400
  | .Gui => 0x402
  | .Sql => 0x403
  | .Pvrz => 0x404
  | .Glsl => 0x405
  | .Tot => 0x406
  | .Toh => 0x407
  | .Menu => 0x408
  | .Lua => 0x409
  | .Ttf => 0x40a
  | .Png => 0x40b
  | .Bah => 0x44c
  | .Ini => 0x802
  | .Src => 0x803
  | .Maze => 0x804
  | .Mus => 0xffe
  | .Acm => 0xfff
  | .Unknown i => i

/-- `ResourceType::get_extension`. -/
def get_extension : ResourceType → Option String
  | .Bmp => some "bmp"
  | .Mve => some "mve"
  | .Wav => some "wav"
  | .Wfx => some "wfx"
  | .Plt => some "plt"
  | .Tga => some "tga"
  | .Bam => some "bam"
  | .Wed => some "wed"
  | .Chu => some "chu"
  | .Tis => some "tis"
  | .Mos => some "mos"
  | .Itm => some "itm"
  | .Spl => some "spl"
  | .Bcs => some "bcs"
  | .Ids => some "ids"
  | .Cre => some "cre"
  | .Are => some "are"
  | .Dlg => some "dlg"
  | .Two => some "two"
  | .Gam => some "gam"
  | .Sto => some "sto"
  | .Wmp => some "wmp"
  | .Eff => some "eff"
  | .Bs => some "bs"
  | .Chr => some "chr"
  | .Vvc => some "vvc"
  | .Vef => some "vef"
  | .Pro => some "pro"
  | .Bio => some "bio"
  | .Wbm => some "wbm"
  | .Fnt => some "fnt"
  | .Gui => some "gui"
  | .Sql => some "sql"
  | .Pvrz => some "pvrz"
  | .Glsl => some "glsl"
  | .Tot => some "tot"
  | .Toh => some "toh"
  | .Menu => some "menu"
  | .Lua => some "lua"
  | .Ttf => some "ttf"
  | .Png => some "png"
  | .Bah => some "bah"
  | .Ini => some "ini"
  | .Src => some "src"
  | .Maze => some "maze"
  | .Mus => some "mus"
  | .Acm => some "acm"
  | .Unknown _ => none

/-- Does this variant carry a raw unknown code? -/
def isUnknown : ResourceType → Bool
  | .Unknown _ => true
  | _ => false

end ResourceType

/-- The 46 codes of the known resource-type table in `ResourceType::from`. -/
def knownResourceCodes : List Nat :=
  [0x001, 0x002, 0x004, 0x005, 0x006, 0x3b8, 0x3e8, 0x3e9, 0x3ea, 0x3eb,
   0x3ec, 0x3ed, 0x3ee, 0x3ef, 0x3f0, 0x3f1, 0x3f2, 0x3f3, 0x3f4, 0x3f5,
   0x3f6, 0x3f7, 0x3f8, 0x3f9, 0x3fa, 0x3fb, 0x3fc, 0x3fd, 0x3fe, 0x3ff,
   0x400, 0x402, 0x403, 0x404, 0x405, 0x406, 0x407, 0x408, 0x409, 0x40a,
   0x40b, 0x44c, 0x802, 0x803, 0x804, 0xffe, 0xfff]

/-- A string is short ASCII when it is at most 4 characters, all below
0x80. -/
def shortAscii (s : String) : Prop :=
  s.length ≤ 4 ∧ ∀ c ∈ s.toList, c.toNat < 128

instance (s : String) : Decidable (shortAscii s) := by
  unfold shortAscii; infer_instance

/-! ### KEY catalog parser (`src/core/src/resource/key.rs`) -/

/-- `BifDirectory`: logical disk tag of a BIF entry. -/
inductive BifDirectory where
  | Root | Cache | Cd1 | Cd2 | Cd3 | Cd4 | Cd5 | Cd6 | Cd7
  | Unknown (code : Nat)
deriving Repr, DecidableEq

namespace BifDirectory

/-- `BifDirectory::from`. -/
def fromCode (bit : Nat) : BifDirectory :=
  match bit with
  | 0 => .Root
  | 1 => .Cache
  | 2 => .Cd1
  | 3 => .Cd2
  | 4 => .Cd3
  | 5 => .Cd4
  | 6 => .Cd5
  | 7 => .Cd6
  | 8 => .Cd7
  | i => .Unknown i

/-- `BifDirectory::to_u16`. -/
def to_u16 : BifDirectory → Nat
  | .Root => 0
  | .Cache => 1
  | .Cd1 => 2
  | .Cd2 => 3
  | .Cd3 => 4
  | .Cd4 => 5
  | .Cd5 => 6
  | .Cd6 => 7
  | .Cd7 => 8
  | .Unknown i => i

end BifDirectory

/-- A BIFF entry inside a KEY file. -/
structure BifEntry where
  index : Nat
  file_name : List Nat
  file_size : Option Nat
  file : Option (List Nat)
  directory : BifDirectory
deriving Repr, DecidableEq

/-- A resource entry inside a KEY file. -/
structure ResourceEntry where
  resource_name : List Nat
  type : ResourceType
  locator : Nat
deriving Repr, DecidableEq

/-- The BG1-demo variant detection of `Key::import` (key.rs:135-136):
`reader.read_u32_at(bif_offset)? - bif_offset == bif_size * 0x8 &&
 reader.read_u32_at(bif_offset + 4)? - bif_offset != bif_size * 0xc`,
with Rust's short-circuiting `&&` and checked `u32` arithmetic. -/
def Key.checkDemo (bif_offset bif_size : Nat) (s : ReaderState) :
    RRes (Bool × ReaderState) :=
  (Reader.read_u32_at bif_offset s).bind fun (v0, s1) =>
  (checkedSub v0 bif_offset).bind fun d0 =>
  (checkedMulU32 bif_size 0x8).bind fun m8 =>
  if d0 = m8 then
    (Reader.read_u32_at (bif_offset + 4) s1).bind fun (v1, s2) =>
    (checkedSub v1 bif_offset).bind fun d1 =>
    (checkedMulU32 bif_size 0xc).bind fun m12 =>
    .ok (decide (d1 ≠ m12), s2)
  else
    .ok (false, s1)

/-- `".bif"` as bytes. -/
def dotBif : List Nat := [46, 98, 105, 102]

/-- `".cbf"` as bytes. -/
def dotCbf : List Nat := [46, 99, 98, 102]

/-- `BifEntry::read_entry` (key.rs:166-207).  The CIFS lookup
`find_bif_file(fs, name)` is external filesystem I/O and is passed in as
`find`; the `.bif` → `.cbf` retry stays here as in the source. -/
def BifEntry.read_entry (find : List Nat → Option (List Nat))
    (index : Nat) (is_demo : Bool) (s : ReaderState) :
    RRes (BifEntry × ReaderState) :=
  (if is_demo = false then
      (Reader.read_u32 s).map fun (v, s1) => (some v, s1)
    else .ok (none, s)).bind fun (file_size, s1) =>
  (Reader.read_u32 s1).bind fun (string_offset, s2) =>
  (Reader.read_u16 s2).bind fun (string_length, s3) =>
  (Reader.read_u16 s3).bind fun (location, s4) =>
  (Reader.position s4).bind fun (offset_position, s5) =>
  (checkedSub string_length 1).bind fun name_len =>
  (Reader.read_string_at string_offset name_len s5).bind fun (raw, s6) =>
  let normalized := replaceByte 58 47 (replaceByte 92 47
    ((trimBytes raw).map lowerByte))
  let file_name := if normalized.headI = 47 ∧ normalized ≠ [] then
      normalized.drop 1 else normalized
  (Reader.set_position offset_position s6).bind fun (_, s7) =>
  let bif_file := (find file_name).orElse fun _ =>
    find (replaceSeq dotBif dotCbf file_name)
  .ok ({ index, file_name, file_size, file := bif_file,
         directory := BifDirectory.fromCode location }, s7)

/-- `ResourceEntry::read_entry` (key.rs:222-235). -/
def ResourceEntry.read_entry (s : ReaderState) :
    RRes (ResourceEntry × ReaderState) :=
  (Reader.read_string 8 s).bind fun (raw, s1) =>
  (Reader.read_u16 s1).bind fun (resource_type, s2) =>
  (Reader.read_u32 s2).bind fun (locator, s3) =>
  .ok ({ resource_name := trimBytes raw,
         type := ResourceType.fromCode resource_type, locator }, s3)

/-- A parsed KEY file.  The `file` field holds the resolved path of the
KEY file itself (external filesystem state, passed through). -/
structure Key where
  file : List Nat
  signature : List Nat
  version : List Nat
  resources_offset : Nat
  bif_offset : Nat
  bif_entries : List BifEntry
  resource_entries : List ResourceEntry
deriving Repr, DecidableEq

/-- The `for i in 0..bif_size` loop of `Key::import`. -/
def Key.readBifEntries (find : List Nat → Option (List Nat))
    (count i : Nat) (is_demo : Bool) (acc : List BifEntry)
    (s : ReaderState) : RRes (List BifEntry × ReaderState) :=
  match count with
  | 0 => .ok (acc, s)
  | n + 1 =>
    (BifEntry.read_entry find i is_demo s).bind fun (e, s1) =>
    Key.readBifEntries find n (i + 1) is_demo (acc ++ [e]) s1

/-- The resource-entry loop of `Key::import`. -/
def Key.readResourceEntries (count : Nat) (acc : List ResourceEntry)
    (s : ReaderState) : RRes (List ResourceEntry × ReaderState) :=
  match count with
  | 0 => .ok (acc, s)
  | n + 1 =>
    (ResourceEntry.read_entry s).bind fun (e, s1) =>
    Key.readResourceEntries n (acc ++ [e]) s1

/-- `Key::import` (key.rs:119-161).  `find` stands for the CIFS lookup
`find_bif_file`, `key_file_path` for the resolved path of the KEY file. -/
def Key.import' (find : List Nat → Option (List Nat))
    (key_file_path : List Nat) (s : ReaderState) : RRes (Key × ReaderState) :=
  (Reader.read_string 4 s).bind fun (sig0, s1) =>
  let signature := trimBytes sig0
  (Reader.read_string 4 s1).bind fun (ver0, s2) =>
  let version := trimBytes ver0
  if signature = [75, 69, 89] ∧ version = [86, 49] then
    (Reader.read_u32 s2).bind fun (bif_size, s3) =>
    (Reader.read_u32 s3).bind fun (resources_size, s4) =>
    (Reader.read_u32 s4).bind fun (bif_offset, s5) =>
    (Reader.read_u32 s5).bind fun (resources_offset, s6) =>
    (Key.checkDemo bif_offset bif_size s6).bind fun (is_demo, s7) =>
    (Reader.set_position bif_offset s7).bind fun (_, s8) =>
    (Key.readBifEntries find bif_size 0 is_demo [] s8).bind fun (bif_entries, s9) =>
    (Reader.set_position resources_offset s9).bind fun (_, s10) =>
    (Key.readResourceEntries resources_size [] s10).bind fun (resource_entries, s11) =>
    .ok ({ file := key_file_path, signature, version, resources_offset,
           bif_offset, bif_entries, resource_entries }, s11)
  else .err "Wrong file type"

/-! ### BAM v1 parser (`src/core/src/resource/bam/bam_v1.rs`) -/

/-- `bam::Type`. -/
inductive BamType where
  | BamC | BamV1 | BamV2
deriving Repr, DecidableEq

/-- `"BAM V1  "` as bytes. -/
def BAM_V1_SIGNATURE : List Nat := [66, 65, 77, 32, 86, 49, 32, 32]

/-- `"BAM V2  "` as bytes. -/
def BAM_V2_SIGNATURE : List Nat := [66, 65, 77, 32, 86, 50, 32, 32]

/-- `"BAMCV1  "` as bytes. -/
def BAMC_SIGNATURE : List Nat := [66, 65, 77, 67, 86, 49, 32, 32]

/-- `Type::signature`. -/
def BamType.signature : BamType → List Nat
  | .BamV1 => BAM_V1_SIGNATURE
  | .BamV2 => BAM_V2_SIGNATURE
  | .BamC => BAMC_SIGNATURE

/-- `common::Rgb`: an RGB color with alpha. -/
structure Rgb where
  r : Nat
  g : Nat
  b : Nat
  alpha : Nat
deriving Repr, DecidableEq

/-- `BamV1Frame`. -/
structure BamV1Frame where
  width : Nat
  height : Nat
  center_x : Nat
  center_y : Nat
  pixel_palette_indexes : List Nat
deriving Repr, DecidableEq

/-- `BamV1Cycle`. -/
structure BamV1Cycle where
  frame_indices : List Nat
deriving Repr, DecidableEq

/-- `BamV1`. -/
structure BamV1 where
  type : BamType
  frames : List BamV1Frame
  palette : List Rgb
  cycles : List BamV1Cycle
  rle_compressed_color_index : Nat
deriving Repr, DecidableEq

namespace BamV1Parser

/-- The `for i in 0..palette_entries` loop of the palette stage
(bam_v1.rs:55-71): reads `B, G, R, A` per entry, remaps a stored alpha
of 0 to 255, and tracks the transparency index (set to `i` at the first
pure-green entry found while the index is still 0). -/
def readPaletteLoop (count i transparency_index : Nat) (palette : List Rgb)
    (s : ReaderState) : RRes ((List Rgb × Nat) × ReaderState) :=
  match count with
  | 0 => .ok ((palette, transparency_index), s)
  | n + 1 =>
    (Reader.read_u8 s).bind fun (b, s1) =>
    (Reader.read_u8 s1).bind fun (g, s2) =>
    (Reader.read_u8 s2).bind fun (r, s3) =>
    (Reader.read_u8 s3).bind fun (a0, s4) =>
    let alpha := if a0 = 0 then 255 else a0
    let ti := if transparency_index = 0 ∧ r = 0 ∧ g = 255 ∧ b = 0 then i
      else transparency_index
    readPaletteLoop n (i + 1) ti (palette ++ [⟨r, g, b, alpha⟩]) s4

/-- The palette stage of `BamV1Parser::import` (bam_v1.rs:48-84):
`palette_entries = 256.min((lookup_offset - palette_offset) / 4)` with
checked `u64` subtraction, the read loop, and the unconditional
overwrite `palette[transparency_index] = (0, 255, 0, 0)` which indexes
out of bounds when the palette is empty. -/
def paletteStage (palette_offset lookup_offset : Nat) (s : ReaderState) :
    RRes (List Rgb × ReaderState) :=
  (checkedSub lookup_offset palette_offset).bind fun diff =>
  let palette_entries := min 256 (diff / 4)
  (Reader.set_position palette_offset s).bind fun (_, s1) =>
  (readPaletteLoop palette_entries 0 0 [] s1).bind fun ((palette, ti), s2) =>
  if h : ti < palette.length then
    .ok (palette.set ti ⟨0, 255, 0, 0⟩, s2)
  else
    .fatal "index out of bounds"

/-- The `while pixel_palette_indexes.len() < size` RLE decode loop
(bam_v1.rs:104-115), viewed over the bytes remaining at `data_offset`
(the loop only does sequential `read_u8`, never seeks): when the frame
is compressed and the byte equals the RLE marker, the next byte `n`
makes the marker repeat `n + 1` times; a full run is always appended,
without truncation at `size`. -/
def readPixels (compressed : Bool) (rle size : Nat) (rem acc : List Nat) :
    RRes (List Nat × List Nat) :=
  if acc.length < size then
    match rem with
    | [] => .err "failed to fill whole buffer"
    | b :: rest =>
      if compressed = true ∧ b % 256 = rle then
        match rest with
        | [] => .err "failed to fill whole buffer"
        | n :: rest2 =>
          readPixels compressed rle size rest2
            (acc ++ List.replicate (n % 256 + 1) (b % 256))
      else
        readPixels compressed rle size rest (acc ++ [b % 256])
  else .ok (acc, rem)

/-- The frame-table loop of `BamV1Parser::import` (bam_v1.rs:87-129):
12-byte frame records; `data_offset = data_bits & 0x7fffffff`,
`compressed = (data_bits & 0x80000000) == 0`; the cursor is saved,
moved to `data_offset` for pixel decoding, and restored. -/
def readFramesLoop (count rle : Nat) (acc : List BamV1Frame)
    (s : ReaderState) : RRes (List BamV1Frame × ReaderState) :=
  match count with
  | 0 => .ok (acc, s)
  | n + 1 =>
    (Reader.read_u16 s).bind fun (width, s1) =>
    (Reader.read_u16 s1).bind fun (height, s2) =>
    (Reader.read_u16 s2).bind fun (center_x, s3) =>
    (Reader.read_u16 s3).bind fun (center_y, s4) =>
    (Reader.read_u32 s4).bind fun (data_bits, s5) =>
    let data_offset := data_bits % 2 ^ 31
    let compressed := decide (data_bits / 2 ^ 31 % 2 = 0)
    let size := width * height
    (Reader.position s5).bind fun (position, s6) =>
    (Reader.set_position data_offset s6).bind fun (_, s7) =>
    (readPixels compressed rle size (s7.data.drop s7.pos) []).bind
      fun (pixel_palette_indexes, _) =>
    (Reader.set_position position s7).bind fun (_, s9) =>
    readFramesLoop n rle
      (acc ++ [⟨width, height, center_x, center_y, pixel_palette_indexes⟩]) s9

/-- The frame-index read of one cycle (bam_v1.rs:143-148). -/
def readFrameIndices (count : Nat) (acc : List Nat) (s : ReaderState) :
    RRes (List Nat × ReaderState) :=
  match count with
  | 0 => .ok (acc, s)
  | n + 1 =>
    (Reader.read_u16 s).bind fun (frame_index, s1) =>
    readFrameIndices n (acc ++ [frame_index]) s1

/-- The cycle-table loop of `BamV1Parser::import` (bam_v1.rs:132-155). -/
def readCyclesLoop (count lookup_offset : Nat) (acc : List BamV1Cycle)
    (s : ReaderState) : RRes (List BamV1Cycle × ReaderState) :=
  match count with
  | 0 => .ok (acc, s)
  | n + 1 =>
    (Reader.read_u16 s).bind fun (indices_count, s1) =>
    (Reader.read_u16 s1).bind fun (lookup_table_index, s2) =>
    (Reader.position s2).bind fun (position, s3) =>
    (Reader.set_position (lookup_offset + 2 * lookup_table_index) s3).bind
      fun (_, s4) =>
    (readFrameIndices indices_count [] s4).bind fun (frame_indices, s5) =>
    (Reader.set_position position s5).bind fun (_, s6) =>
    readCyclesLoop n lookup_offset (acc ++ [⟨frame_indices⟩]) s6

end BamV1Parser

/-- `BamV1Parser::import` (bam_v1.rs:28-164). -/
def BamV1Parser.import' (s : ReaderState) : RRes (BamV1 × ReaderState) :=
  (Reader.read_string 8 s).bind fun (signature, s1) =>
  if signature ≠ BamType.BamV1.signature then
    .err "Wrong file type: "
  else
    (Reader.read_u16 s1).bind fun (frames_count, s2) =>
    (Reader.read_u8 s2).bind fun (cycles_count, s3) =>
    (Reader.read_u8 s3).bind fun (rle_compressed_color_index, s4) =>
    (Reader.read_u32 s4).bind fun (frames_offset, s5) =>
    (Reader.read_u32 s5).bind fun (palette_offset, s6) =>
    (Reader.read_u32 s6).bind fun (lookup_offset, s7) =>
    (BamV1Parser.paletteStage palette_offset lookup_offset s7).bind
      fun (palette, s8) =>
    (Reader.set_position frames_offset s8).bind fun (_, s9) =>
    (BamV1Parser.readFramesLoop frames_count rle_compressed_color_index [] s9).bind
      fun (frames, s10) =>
    (BamV1Parser.readCyclesLoop cycles_count lookup_offset [] s10).bind
      fun (cycles, s11) =>
    .ok ({ type := .BamV1, frames, palette, cycles,
           rle_compressed_color_index }, s11)

/-! ### BAMC parser (`src/core/src/resource/bam/bamc.rs`) -/

/-- `bam::Bam`. -/
inductive Bam where
  | V1 (bam : BamV1)
deriving Repr, DecidableEq

/-- Modelled from the spec: `BamImporter::from_reader` is called by
`BamcParser::import` but its definition is missing from the sources
(only `BamImporter::import` is present); spec §4.7 states that the
inflated BAMC body is a complete `BAM V1` body delegated to the BAM v1
parser. -/
def BamImporter.from_reader (s : ReaderState) : RRes (Bam × ReaderState) :=
  (BamV1Parser.import' s).map fun (bam, s') => (Bam.V1 bam, s')

/-- `BamcParser::import` (bamc.rs:13-28).  `inflate` stands for the
third-party zlib decompression of `as_zip_reader().decode_all()`,
applied to the bytes following the cursor. -/
def BamcParser.import' (inflate : List Nat → List Nat) (s : ReaderState) :
    RRes (Bam × ReaderState) :=
  (Reader.read_string 8 s).bind fun (signature, s1) =>
  if signature ≠ BamType.BamC.signature then
    .err "Wrong file type: "
  else
    (Reader.read_u32 s1).bind fun (_uncompressed_size, s2) =>
    BamImporter.from_reader ⟨inflate (s2.data.drop s2.pos), 0⟩

/-! ### BIF and BIFC parsers
(`src/core/src/resource/bif/bif.rs`, `bifc_reader.rs`, `mod.rs`) -/

/-- `bif::Type`. -/
inductive BifType where
  | Biff | Bif | Bifc
deriving Repr, DecidableEq

/-- `"BIFFV1  "` as bytes. -/
def BIFFV1_SIGNATURE : List Nat := [66, 73, 70, 70, 86, 49, 32, 32]

/-- `"BIF V1.0"` as bytes. -/
def BIF_V1_0_SIGNATURE : List Nat := [66, 73, 70, 32, 86, 49, 46, 48]

/-- `"BIFCV1.0"` as bytes. -/
def BIFCV1_0_SIGNATURE : List Nat := [66, 73, 70, 67, 86, 49, 46, 48]

/-- `BifEmbeddedFile`. -/
structure BifEmbeddedFile where
  locator : Nat
  size : Nat
  offset : Nat
  type : ResourceType
deriving Repr, DecidableEq

/-- `BifEmbeddedTileset`. -/
structure BifEmbeddedTileset where
  locator : Nat
  size : Nat
  count : Nat
  offset : Nat
  type : ResourceType
deriving Repr, DecidableEq

/-- `parse_bif_embedded_file` (bif/mod.rs): `locator & 0xfffff`, offset,
size, type, and two unknown bytes consumed and discarded. -/
def parse_bif_embedded_file (s : ReaderState) :
    RRes (BifEmbeddedFile × ReaderState) :=
  (Reader.read_u32 s).bind fun (locator0, s1) =>
  let locator := locator0 % 1048576
  (Reader.read_u32 s1).bind fun (offset, s2) =>
  (Reader.read_u32 s2).bind fun (size, s3) =>
  (Reader.read_u16 s3).bind fun (rtype, s4) =>
  (Reader.read_u16 s4).bind fun (_, s5) =>
  .ok ({ locator, offset, size, type := ResourceType.fromCode rtype }, s5)

/-- `parse_bif_embedded_tileset` (bif/mod.rs). -/
def parse_bif_embedded_tileset (s : ReaderState) :
    RRes (BifEmbeddedTileset × ReaderState) :=
  (Reader.read_u32 s).bind fun (locator0, s1) =>
  let locator := locator0 % 1048576
  (Reader.read_u32 s1).bind fun (offset, s2) =>
  (Reader.read_u32 s2).bind fun (count, s3) =>
  (Reader.read_u32 s3).bind fun (size, s4) =>
  (Reader.read_u16 s4).bind fun (rtype, s5) =>
  (Reader.read_u16 s5).bind fun (_, s6) =>
  .ok ({ locator, offset, count, size, type := ResourceType.fromCode rtype }, s6)

/-- The `Bif` record of `bif/bif.rs` / `bif/mod.rs`: files then tilesets. -/
structure Bif where
  type : BifType
  files : List BifEmbeddedFile
  tilesets : List BifEmbeddedTileset
deriving Repr, DecidableEq

namespace BifParser

/-- The file-entry loop of `BifParser::import`. -/
def readFiles (count : Nat) (acc : List BifEmbeddedFile) (s : ReaderState) :
    RRes (List BifEmbeddedFile × ReaderState) :=
  match count with
  | 0 => .ok (acc, s)
  | n + 1 =>
    (parse_bif_embedded_file s).bind fun (e, s1) =>
    readFiles n (acc ++ [e]) s1

/-- The tileset-entry loop of `BifParser::import`. -/
def readTilesets (count : Nat) (acc : List BifEmbeddedTileset)
    (s : ReaderState) : RRes (List BifEmbeddedTileset × ReaderState) :=
  match count with
  | 0 => .ok (acc, s)
  | n + 1 =>
    (parse_bif_embedded_tileset s).bind fun (e, s1) =>
    readTilesets n (acc ++ [e]) s1

/-- The entry-reading tail of `BifParser::import` (bif.rs:57-73): all
file entries then all tileset entries from the current position. -/
def entriesPhase (files_number tilesets_number : Nat) (s : ReaderState) :
    RRes (Bif × ReaderState) :=
  (readFiles files_number [] s).bind fun (files, s1) =>
  (readTilesets tilesets_number [] s1).bind fun (tilesets, s2) =>
  .ok ({ type := .Bif, files, tilesets }, s2)

/-- The inflated-body part of `BifParser::import` (bif.rs:30-73):
`BIFFV1` signature, counts, `files_offset`; a `files_offset` below the
20-byte fixed header is a decode error, otherwise `files_offset - 20`
bytes are skipped before the entries. -/
def importBody (body : List Nat) : RRes (Bif × ReaderState) :=
  (Reader.read_string 8 ⟨body, 0⟩).bind fun (signature, z1) =>
  if signature ≠ BIFFV1_SIGNATURE then
    .err "Wrong file type: "
  else
    (Reader.read_u32 z1).bind fun (files_number, z2) =>
    (Reader.read_u32 z2).bind fun (tilesets_number, z3) =>
    (Reader.read_u32 z3).bind fun (files_offset, z4) =>
    if files_offset < 20 then
      .err ("Invalid decompressed BIFF header offset: " ++ Nat.repr files_offset)
    else
      (Reader.skip (files_offset - 20) z4).bind fun (_, z5) =>
      entriesPhase files_number tilesets_number z5

end BifParser

/-- `BifParser::import` (bif.rs:13-74): outer `"BIF V1.0"` header (name
and advisory lengths discarded), then the zlib-inflated `BIFFV1` body;
`inflate` stands for the third-party zlib stream decoder. -/
def BifParser.import' (inflate : List Nat → List Nat) (s : ReaderState) :
    RRes (Bif × ReaderState) :=
  (Reader.read_string 8 s).bind fun (signature, s1) =>
  if signature ≠ BIF_V1_0_SIGNATURE then
    .err "Wrong file type: "
  else
    (Reader.read_u32 s1).bind fun (name_length, s2) =>
    (Reader.read_string name_length s2).bind fun (_name, s3) =>
    (Reader.read_u32 s3).bind fun (_uncompressed_len, s4) =>
    (Reader.read_u32 s4).bind fun (_compressed_len, s5) =>
    BifParser.importBody (inflate (s5.data.drop s5.pos))

/-- `BifEmbeddedResource` of `bif/bifc_reader.rs`: tagged File/Tileset. -/
inductive BifEmbeddedResource where
  | File (locator size offset : Nat) (type : ResourceType)
  | Tileset (locator size count offset : Nat) (type : ResourceType)
deriving Repr, DecidableEq

/-- The `Bif` record shape of `bif/bifc_reader.rs`: one resource list. -/
structure BifcBif where
  type : BifType
  resources : List BifEmbeddedResource
deriving Repr, DecidableEq

namespace BifcParser

/-- The file-entry loop of `BifcParser::import`, pushing `File` tags. -/
def readFileResources (count : Nat) (acc : List BifEmbeddedResource)
    (s : ReaderState) : RRes (List BifEmbeddedResource × ReaderState) :=
  match count with
  | 0 => .ok (acc, s)
  | n + 1 =>
    (parse_bif_embedded_file s).bind fun (e, s1) =>
    readFileResources n (acc ++ [.File e.locator e.size e.offset e.type]) s1

/-- The tileset-entry loop of `BifcParser::import`, pushing `Tileset`
tags. -/
def readTilesetResources (count : Nat) (acc : List BifEmbeddedResource)
    (s : ReaderState) : RRes (List BifEmbeddedResource × ReaderState) :=
  match count with
  | 0 => .ok (acc, s)
  | n + 1 =>
    (parse_bif_embedded_tileset s).bind fun (e, s1) =>
    readTilesetResources n
      (acc ++ [.Tileset e.locator e.size e.count e.offset e.type]) s1

/-- The entry-reading tail of `BifcParser::import` (bifc_reader.rs:62-76). -/
def entriesPhase (files_number tilesets_number : Nat) (s : ReaderState) :
    RRes (BifcBif × ReaderState) :=
  (readFileResources files_number [] s).bind fun (res1, s1) =>
  (readTilesetResources tilesets_number res1 s1).bind fun (resources, s2) =>
  .ok ({ type := .Bifc, resources }, s2)

/-- The decoded-body part of `BifcParser::import` (bifc_reader.rs:37-78):
identical `BIFFV1` header handling and `files_offset - 20` skip over the
block-decompressed stream. -/
def importBody (body : List Nat) : RRes (BifcBif × ReaderState) :=
  (Reader.read_string 8 ⟨body, 0⟩).bind fun (signature, z1) =>
  if signature ≠ BIFFV1_SIGNATURE then
    .err "Wrong file type: "
  else
    (Reader.read_u32 z1).bind fun (files_number, z2) =>
    (Reader.read_u32 z2).bind fun (tilesets_number, z3) =>
    (Reader.read_u32 z3).bind fun (files_offset, z4) =>
    if files_offset < 20 then
      .err ("Invalid decompressed BIFF header offset: " ++ Nat.repr files_offset)
    else
      (Reader.skip (files_offset - 20) z4).bind fun (_, z5) =>
      entriesPhase files_number tilesets_number z5

end BifcParser

/-- `BifcParser::import` (bifc_reader.rs:17-82): outer `"BIFCV1.0"`
header, then the logical decoded stream of the block-zlib adapter
`BifcCompressedReader` (a concatenation of per-block inflations),
represented by `decodeBlocks`. -/
def BifcParser.import' (decodeBlocks : List Nat → List Nat)
    (s : ReaderState) : RRes (BifcBif × ReaderState) :=
  (Reader.read_string 8 s).bind fun (signature, s1) =>
  if signature ≠ BIFCV1_0_SIGNATURE then
    .err "Wrong file type: "
  else
    (Reader.read_u32 s1).bind fun (_uncompressed_size, s2) =>
    BifcParser.importBody (decodeBlocks (s2.data.drop s2.pos))

/-! ### PVRZ importer (`src/core/src/resource/pvr.rs`) -/

/-- `PvrDataCompression`. -/
inductive PvrDataCompression where
  | DXT1
  | DXT5
deriving Repr, DecidableEq

/-- `PvrDataCompression::from_u64` (pvr.rs:129-138): 7 is DXT1, 11 is
DXT5, anything else is an error naming the unexpected value. -/
def PvrDataCompression.from_u64 (value : Nat) : RRes PvrDataCompression :=
  match value with
  | 7 => .ok .DXT1
  | 11 => .ok .DXT5
  | v => .err ("Unexpected pixel_format: " ++ Nat.repr v)

/-- `PvrDataCompression::to_u64`. -/
def PvrDataCompression.to_u64 : PvrDataCompression → Nat
  | .DXT1 => 7
  | .DXT5 => 11

/-- `PvrzHeader`. -/
structure PvrzHeader where
  version : Nat
  flags : Nat
  pixel_format : PvrDataCompression
  color_space : Nat
  channel_type : Nat
  height : Nat
  width : Nat
  depth : Nat
  surfaces_number : Nat
  faces_number : Nat
  mip_map_count : Nat
  metadata_size : Nat
deriving Repr, DecidableEq

/-- `PvrzImporter::import` (pvr.rs:18-43): a leading opaque `u32`, then
the zlib-inflated 52-byte PVR3 header; `inflate` stands for the
third-party zlib stream decoder.  Rust struct-literal fields evaluate in
order, so a bad `pixel_format` aborts before the later reads. -/
def PvrzImporter.import' (inflate : List Nat → List Nat) (s : ReaderState) :
    RRes (PvrzHeader × ReaderState) :=
  (Reader.read_u32 s).bind fun (_size, s1) =>
  (Reader.read_u32 ⟨inflate (s1.data.drop s1.pos), 0⟩).bind fun (version, z1) =>
  (Reader.read_u32 z1).bind fun (flags, z2) =>
  (Reader.read_u64 z2).bind fun (pf, z3) =>
  (PvrDataCompression.from_u64 pf).bind fun pixel_format =>
  (Reader.read_u32 z3).bind fun (color_space, z4) =>
  (Reader.read_u32 z4).bind fun (channel_type, z5) =>
  (Reader.read_u32 z5).bind fun (height, z6) =>
  (Reader.read_u32 z6).bind fun (width, z7) =>
  (Reader.read_u32 z7).bind fun (depth, z8) =>
  (Reader.read_u32 z8).bind fun (surfaces_number, z9) =>
  (Reader.read_u32 z9).bind fun (faces_number, z10) =>
  (Reader.read_u32 z10).bind fun (mip_map_count, z11) =>
  (Reader.read_u32 z11).bind fun (metadata_size, z12) =>
  .ok ({ version, flags, pixel_format, color_space, channel_type, height,
         width, depth, surfaces_number, faces_number, mip_map_count,
         metadata_size }, z12)

/-! ### 2DA table parser (`src/core/src/resource/two_da.rs`) -/

/-- The scanning loop of `parse_headers` over `char_indices` (the 2DA
format is single-byte text, so byte and char indices coincide):
whitespace closes a word, a non-whitespace char outside a word opens one
at the current index; `input` is kept whole for slicing. -/
def parse_headersGo (input rest : List Nat) (i : Nat) (in_word : Bool)
    (start : Nat) (headers : List (List Nat)) (columns : List Nat) :
    List (List Nat) × List Nat :=
  match rest with
  | [] =>
    if in_word then
      (headers ++ [input.drop start], columns ++ [start])
    else
      (headers, columns)
  | c :: cs =>
    if isWsByte c then
      if in_word then
        parse_headersGo input cs (i + 1) false start
          (headers ++ [sliceBytes input start i]) (columns ++ [start])
      else
        parse_headersGo input cs (i + 1) false start headers columns
    else
      if in_word then
        parse_headersGo input cs (i + 1) true start headers columns
      else
        parse_headersGo input cs (i + 1) true i headers columns

/-- `parse_headers` (two_da.rs:55-82): words of the header line and
their byte start offsets. -/
def parse_headers (input : List Nat) : List (List Nat) × List Nat :=
  parse_headersGo input input 0 false 0 [] []

/-- `Itertools::tuple_windows` over a list, as pairs. -/
def tupleWindows (l : List Nat) : List (Nat × Nat) := l.zip l.tail

/-- The cell loop of `parse_data_row` (two_da.rs:92-105) over the
windows `(columns[i], columns[i+1])` with `max_len` appended: a cell
starting at or past the end of the line is the default; otherwise Rust
slices `line[s..e]`, which panics when the range leaves the line, trims
it, and substitutes the default for an empty cell. -/
def parseCells (line default : List Nat) :
    List (Nat × Nat) → RRes (List (List Nat))
  | [] => .ok []
  | (s, e) :: rest =>
    if line.length ≤ s then
      (parseCells line default rest).map (default :: ·)
    else if s ≤ e ∧ e ≤ line.length then
      let word := trimBytes (sliceBytes line s e)
      (parseCells line default rest).map
        ((if word = [] then default else word) :: ·)
    else .fatal "byte index out of bounds"

/-- `parse_data_row` (two_da.rs:86-108): the key is the trimmed prefix
up to `columns[0].min(max_len)` (indexing `columns[0]` panics when the
header had no columns), the cells come from the column windows. -/
def parse_data_row (line columns default : List Nat) :
    RRes (List Nat × List (List Nat)) :=
  match columns with
  | [] => .fatal "index out of bounds"
  | c0 :: _ =>
    let max_len := line.length
    let key := trimBytes (line.take (min c0 max_len))
    (parseCells line default (tupleWindows (columns ++ [max_len]))).map
      fun cells => (key, cells)

/-- Model of `HashMap::insert`: replace the value of an existing key,
append a new pair otherwise (the map is unordered; only lookup and size
are observable). -/
def mapInsert {α β : Type} [DecidableEq α] (m : List (α × β)) (k : α)
    (v : β) : List (α × β) :=
  if m.any (fun p => p.1 = k) then
    m.map fun p => if p.1 = k then (k, v) else p
  else m ++ [(k, v)]

/-- Model of `HashMap::get`. -/
def mapLookup {α β : Type} [DecidableEq α] (m : List (α × β)) (k : α) :
    Option β :=
  (m.find? (fun p => p.1 = k)).map (·.2)

/-- A parsed 2DA table. -/
structure TwoDA where
  headers : List (List Nat)
  columns : List Nat
  rows : List (List Nat × List (List Nat))
deriving Repr, DecidableEq

/-- The data-row loop of `TwoDAImporter::import` (two_da.rs:29-37):
`read_line` until 0 bytes, trim the line, parse it against the header
columns, `rows.insert(key, value)`. -/
def TwoDAImporter.readRows (columns default : List Nat)
    (rows : List (List Nat × List (List Nat))) (s : ReaderState) :
    RRes (List (List Nat × List (List Nat)) × ReaderState) :=
  let lr := Reader.read_lineF s
  if lr.2.1 = 0 then .ok (rows, lr.2.2)
  else
    (parse_data_row (trimBytes lr.1) columns default).bind fun (key, value) =>
    TwoDAImporter.readRows columns default (mapInsert rows key value) lr.2.2
termination_by s.data.length - s.pos
decreasing_by
  rename_i hb
  have hb' : ¬(Reader.read_lineF s).2.1 = 0 := hb
  simp only [Reader.read_lineF] at hb' ⊢
  have hrl : ((s.data.drop s.pos).map (· % 256)).length = s.data.length - s.pos := by
    simp
  have hpl : (((s.data.drop s.pos).map (· % 256)).takeWhile
      (fun b => decide (b ≠ 10))).length ≤ ((s.data.drop s.pos).map (· % 256)).length :=
    (List.takeWhile_prefix _).length_le
  by_cases hc : (((s.data.drop s.pos).map (· % 256)).takeWhile
      (fun b => decide (b ≠ 10))).length < ((s.data.drop s.pos).map (· % 256)).length
  · simp only [if_pos hc, List.length_append, List.length_cons,
      List.length_nil] at hb' ⊢
    omega
  · simp only [if_neg hc] at hb' ⊢
    omega

/-- `TwoDAImporter::import` (two_da.rs:12-44): signature line (a
mismatch is only logged), default-value line, header line, then the
keyed data rows. -/
def TwoDAImporter.import' (s : ReaderState) : RRes (TwoDA × ReaderState) :=
  (Reader.read_line s).bind fun (sigLine, _b0, s1) =>
  let _signature := trimBytes sigLine
  (Reader.read_line s1).bind fun (defLine, _b1, s2) =>
  let default_value := trimBytes defLine
  (Reader.read_line s2).bind fun (headerLine, _b2, s3) =>
  let hc := parse_headers headerLine
  (TwoDAImporter.readRows hc.2 default_value [] s3).bind fun (rows, s4) =>
  .ok ({ headers := hc.1, columns := hc.2, rows }, s4)

/-! ### Spec-side functions used to state the claims -/

/-- The palette entry as loaded by the palette stage: bytes `B, G, R, A`
at `palette_offset + 4 * i`, with a stored alpha of 0 remapped to 255.
Written from the input stream, to be compared with the parser output. -/
def loadedRgb (data : List Nat) (po i : Nat) : Rgb :=
  let b := byteAt data (po + 4 * i)
  let g := byteAt data (po + 4 * i + 1)
  let r := byteAt data (po + 4 * i + 2)
  let a := byteAt data (po + 4 * i + 3)
  ⟨r, g, b, if a = 0 then 255 else a⟩

/-- Palette entry `i` stores pure green `(r, g, b) = (0, 255, 0)`. -/
def isGreenAt (data : List Nat) (po i : Nat) : Prop :=
  byteAt data (po + 4 * i + 2) = 0 ∧ byteAt data (po + 4 * i + 1) = 255
  ∧ byteAt data (po + 4 * i) = 0

instance (data : List Nat) (po i : Nat) : Decidable (isGreenAt data po i) := by
  unfold isGreenAt; infer_instance

/-- The transparency index as the spec claims it: the first palette
position whose RGB is pure green, 0 when none exists. -/
def firstGreenIndex (data : List Nat) (po n : Nat) : Nat :=
  (((List.range n).find? fun i => decide (isGreenAt data po i))).getD 0

/-- The transparency index the code actually computes: because the scan
guard is `transparency_index == 0`, a green entry at position 0 does not
lock the index, so the result is the first green position among
`1 .. n-1`, or 0 when there is none. -/
def transparencyIndexCode (data : List Nat) (po n : Nat) : Nat :=
  (((List.range' 1 (n - 1)).find? fun i => decide (isGreenAt data po i))).getD 0

/-- The fold over the palette loop's transparency-index updates:
starting at loop index `i` with current value `ti`. -/
def tiFold (data : List Nat) (po : Nat) : Nat → Nat → Nat → Nat
  | 0, _, ti => ti
  | n + 1, i, ti =>
    tiFold data po n (i + 1) (if ti = 0 ∧ isGreenAt data po i then i else ti)

/-- The cell value the spec claims for column `i` of a data row: the
trimmed substring over `[columns[i], columns[i+1])` (the last column
extending to end of line), with empty and past-end-of-line cells
replaced by the default. -/
def specCell (line columns default : List Nat) (i : Nat) : List Nat :=
  let s := columns.getD i 0
  let e := if i + 1 < columns.length then columns.getD (i + 1) 0
    else line.length
  if line.length ≤ s then default
  else
    let w := trimBytes (sliceBytes line s e)
    if w = [] then default else w

/-! ### Concrete inputs for counterexamples and witnesses -/

/-- A minimal BAM v1 file: header (24 bytes, `frames_offset = 28`,
`palette_offset = 24`, `lookup_offset = 28`), one palette entry, one
compressed 2×1 frame whose pixel data at offset 40 is the RLE run
`[0, 3]`, which emits 4 pixels where only 2 are needed. -/
def exBam1 : List Nat :=
  [66, 65, 77, 32, 86, 49, 32, 32, 1, 0, 0, 0, 28, 0, 0, 0, 24, 0, 0, 0,
   28, 0, 0, 0, 1, 2, 3, 4, 2, 0, 1, 0, 0, 0, 0, 0, 40, 0, 0, 0, 0, 3]

/-- A minimal BAM v1 file whose two palette entries are both pure green
(`B, G, R, A` = `0, 255, 0, 7` and `0, 255, 0, 9`), followed by one
uncompressed 1×1 frame (`data_bits = 44 + 2^31`). -/
def exBam7 : List Nat :=
  [66, 65, 77, 32, 86, 49, 32, 32, 1, 0, 0, 0, 32, 0, 0, 0, 24, 0, 0, 0,
   32, 0, 0, 0, 0, 255, 0, 7, 0, 255, 0, 9, 1, 0, 1, 0, 0, 0, 0, 0,
   44, 0, 0, 128, 0]

/-- A BAMC file: signature plus advisory `uncompressed_size`, the
compressed payload standing behind the `inflate` parameter. -/
def exBamc : List Nat := BAMC_SIGNATURE ++ [0, 0, 0, 0]

/-- KEY bytes for the demo detection: `bif_offset = 8`, `v0 = 16` at
offset 8 (`16 - 8 = 1 * 8`), `v1 = 21` at offset 12 (`21 - 8 ≠ 1 * 12`). -/
def exKey : List Nat := [0, 0, 0, 0, 0, 0, 0, 0, 16, 0, 0, 0, 21, 0, 0, 0]

/-- An 8-byte (demo) BIF entry: `string_offset = 20`,
`string_length = 2`, `location = 3`, file name `"a"` at offset 20. -/
def exEntry : List Nat :=
  [20, 0, 0, 0, 2, 0, 3, 0, 0, 0, 0, 0, 0, 0, 0, 0, 0, 0, 0, 0, 97]

/-- A 12-byte BIF entry: `file_size = 5` then the same fields. -/
def exEntry12 : List Nat :=
  [5, 0, 0, 0, 24, 0, 0, 0, 2, 0, 3, 0, 0, 0, 0, 0, 0, 0, 0, 0, 0, 0,
   0, 0, 97]

/-- An inflated `BIFFV1` body with no entries and `files_offset = 20`. -/
def exBifBody : List Nat :=
  BIFFV1_SIGNATURE ++ [0, 0, 0, 0, 0, 0, 0, 0, 20, 0, 0, 0]

/-- An inflated `BIFFV1` body with `files_offset = 5 < 20`. -/
def exBifBodyBad : List Nat :=
  BIFFV1_SIGNATURE ++ [0, 0, 0, 0, 0, 0, 0, 0, 5, 0, 0, 0]

/-- A PVRZ stream (with identity `inflate`): opaque leading `u32`, then
a header whose `pixel_format` is 9 (neither DXT1 nor DXT5). -/
def exPvrBad : List Nat :=
  [0, 0, 0, 0] ++ [1, 0, 0, 0, 0, 0, 0, 0, 9, 0, 0, 0, 0, 0, 0, 0, 0, 0, 0, 0]

/-- A PVRZ stream (with identity `inflate`) whose `pixel_format` is 7
and whose 52-byte header is fully present. -/
def exPvrGood : List Nat :=
  [0, 0, 0, 0] ++ [1, 0, 0, 0, 0, 0, 0, 0, 7, 0, 0, 0, 0, 0, 0, 0]
    ++ List.replicate 36 0

/-- A 2DA file with two data rows sharing the key `"A"`:
`"2DA V1.0\n0\n    V\nA   1\nA   2\n"`. -/
def exTwoDA : List Nat :=
  [50, 68, 65, 32, 86, 49, 46, 48, 10, 48, 10, 32, 32, 32, 32, 86, 10,
   65, 32, 32, 32, 49, 10, 65, 32, 32, 32, 50, 10]

/-- The data row line `"AB 1 2"` used to witness the 2DA cell claim. -/
def exRowLine : List Nat := [65, 66, 32, 49, 32, 50]

/-! ### Helper lemmas -/

namespace RRes

@[simp] theorem bind_ok {α β : Type} (a : α) (f : α → RRes β) :
    bind (.ok a) f = f a := rfl

@[simp] theorem bind_err {α β : Type} (m : String) (f : α → RRes β) :
    bind (.err m) f = .err m := rfl

@[simp] theorem bind_fatal {α β : Type} (m : String) (f : α → RRes β) :
    bind (.fatal m) f = .fatal m := rfl

@[simp] theorem map_ok {α β : Type} (f : α → β) (a : α) :
    map f (.ok a) = .ok (f a) := rfl

@[simp] theorem map_err {α β : Type} (f : α → β) (m : String) :
    map f (.err m : RRes α) = .err m := rfl

@[simp] theorem map_fatal {α β : Type} (f : α → β) (m : String) :
    map f (.fatal m : RRes α) = .fatal m := rfl

theorem bind_eq_ok {α β : Type} {x : RRes α} {f : α → RRes β} {b : β}
    (h : x.bind f = .ok b) : ∃ a, x = .ok a ∧ f a = .ok b := by
  cases x with
  | ok a => exact ⟨a, rfl, h⟩
  | err m => cases h
  | fatal m => cases h

theorem map_eq_ok {α β : Type} {x : RRes α} {f : α → β} {b : β}
    (h : x.map f = .ok b) : ∃ a, x = .ok a ∧ b = f a := by
  cases x with
  | ok a => cases h; exact ⟨a, rfl, rfl⟩
  | err m => cases h
  | fatal m => cases h

end RRes

@[simp] theorem checkedSub_le {a b : Nat} (h : b ≤ a) :
    checkedSub a b = .ok (a - b) := by simp [checkedSub, h]

@[simp] theorem checkedSub_gt {a b : Nat} (h : a < b) :
    checkedSub a b = .fatal "attempt to subtract with overflow" := by
  simp [checkedSub]; omega

theorem checkedSub_eq_ok {a b d : Nat} (h : checkedSub a b = .ok d) :
    b ≤ a ∧ d = a - b := by
  unfold checkedSub at h
  split at h
  · cases h; exact ⟨by assumption, rfl⟩
  · cases h

theorem checkedMulU32_eq_ok {a b d : Nat} (h : checkedMulU32 a b = .ok d) :
    d = a * b := by
  unfold checkedMulU32 at h
  split at h
  · cases h; rfl
  · cases h

namespace Reader

theorem read_exact_ok {n : Nat} {s : ReaderState} {bs : List Nat}
    {s' : ReaderState} (h : read_exact n s = .ok (bs, s')) :
    bs = ((s.data.drop s.pos).take n).map (· % 256)
    ∧ s' = { s with pos := s.pos + n } ∧ s.pos + n ≤ s.data.length := by
  unfold read_exact at h
  split at h
  · cases h; exact ⟨rfl, rfl, by assumption⟩
  · cases h

theorem read_exact_of_le {n : Nat} {s : ReaderState}
    (h : s.pos + n ≤ s.data.length) :
    read_exact n s =
      .ok (((s.data.drop s.pos).take n).map (· % 256),
           { s with pos := s.pos + n }) := by
  simp [read_exact, h]

theorem leVal_map_mod (l : List Nat) : leVal (l.map (· % 256)) = leVal l := by
  induction l with
  | nil => rfl
  | cons b bs ih => simp [leVal, ih, Nat.mod_mod_of_dvd b (dvd_refl 256)]

theorem read_u8_eq_ok {s : ReaderState} (h : s.pos < s.data.length) :
    read_u8 s = .ok (byteAt s.data s.pos, { s with pos := s.pos + 1 }) := by
  rw [read_u8, read_exact_of_le (by omega)]
  have hdrop : s.data.drop s.pos = s.data[s.pos] :: s.data.drop (s.pos + 1) :=
    List.drop_eq_getElem_cons h
  rw [RRes.bind_ok, hdrop]
  simp only [byteAt, List.getD_eq_getElem?_getD, List.getElem?_eq_getElem h]
  rfl

theorem read_u8_ok {s : ReaderState} {v : Nat} {s' : ReaderState}
    (h : read_u8 s = .ok (v, s')) :
    v = byteAt s.data s.pos
    ∧ s' = { s with pos := s.pos + 1 } ∧ s.pos + 1 ≤ s.data.length := by
  have hlt : s.pos < s.data.length := by
    unfold read_u8 at h
    cases hx : read_exact 1 s with
    | ok p => have := (read_exact_ok hx).2.2; omega
    | err m => rw [hx] at h; cases h
    | fatal m => rw [hx] at h; cases h
  rw [read_u8_eq_ok hlt] at h
  cases h
  exact ⟨rfl, rfl, by omega⟩

theorem read_u8_cases (s : ReaderState) :
    (∃ v s', read_u8 s = .ok (v, s')) ∨ (∃ m, read_u8 s = .err m) := by
  by_cases hlt : s.pos < s.data.length
  · exact .inl ⟨_, _, read_u8_eq_ok hlt⟩
  · right
    refine ⟨"failed to fill whole buffer", ?_⟩
    unfold read_u8 read_exact
    have : ¬(s.pos + 1 ≤ s.data.length) := by omega
    simp [this]

theorem read_u16_ok {s : ReaderState} {v : Nat} {s' : ReaderState}
    (h : read_u16 s = .ok (v, s')) :
    v = leVal ((s.data.drop s.pos).take 2)
    ∧ s' = { s with pos := s.pos + 2 } ∧ s.pos + 2 ≤ s.data.length := by
  unfold read_u16 at h
  cases hx : read_exact 2 s with
  | ok p =>
    obtain ⟨bs, s1⟩ := p
    obtain ⟨hbs, hs1, hle⟩ := read_exact_ok hx
    rw [hx] at h; cases h
    exact ⟨by rw [hbs, leVal_map_mod], hs1, hle⟩
  | err m => rw [hx] at h; cases h
  | fatal m => rw [hx] at h; cases h

theorem read_u16_of_le {s : ReaderState} (h : s.pos + 2 ≤ s.data.length) :
    read_u16 s = .ok (leVal ((s.data.drop s.pos).take 2),
      { s with pos := s.pos + 2 }) := by
  rw [read_u16, read_exact_of_le h]
  simp only [RRes.bind_ok]
  rw [leVal_map_mod]

theorem read_u32_ok {s : ReaderState} {v : Nat} {s' : ReaderState}
    (h : read_u32 s = .ok (v, s')) :
    v = leVal ((s.data.drop s.pos).take 4)
    ∧ s' = { s with pos := s.pos + 4 } ∧ s.pos + 4 ≤ s.data.length := by
  unfold read_u32 at h
  cases hx : read_exact 4 s with
  | ok p =>
    obtain ⟨bs, s1⟩ := p
    obtain ⟨hbs, hs1, hle⟩ := read_exact_ok hx
    rw [hx] at h; cases h
    exact ⟨by rw [hbs, leVal_map_mod], hs1, hle⟩
  | err m => rw [hx] at h; cases h
  | fatal m => rw [hx] at h; cases h

theorem read_u32_of_le {s : ReaderState} (h : s.pos + 4 ≤ s.data.length) :
    read_u32 s = .ok (leVal ((s.data.drop s.pos).take 4),
      { s with pos := s.pos + 4 }) := by
  rw [read_u32, read_exact_of_le h]
  simp only [RRes.bind_ok]
  rw [leVal_map_mod]

theorem read_u64_of_le {s : ReaderState} (h : s.pos + 8 ≤ s.data.length) :
    read_u64 s = .ok (leVal ((s.data.drop s.pos).take 8),
      { s with pos := s.pos + 8 }) := by
  rw [read_u64, read_exact_of_le h]
  simp only [RRes.bind_ok]
  rw [leVal_map_mod]

theorem read_u32_at_ok {off : Nat} {s : ReaderState} {v : Nat}
    {s' : ReaderState} (h : read_u32_at off s = .ok (v, s')) :
    v = leVal ((s.data.drop off).take 4)
    ∧ s' = { s with pos := off + 4 } ∧ off + 4 ≤ s.data.length := by
  unfold read_u32_at set_position at h
  rw [RRes.bind_ok] at h
  exact read_u32_ok h

theorem skip_of_le {n : Nat} {s : ReaderState} (h : s.pos + n ≤ s.data.length) :
    skip n s = .ok ((), { s with pos := s.pos + n }) := by
  induction n generalizing s with
  | zero => rfl
  | succ m ih =>
    rw [skip, read_u8_eq_ok (by omega)]
    simp only [RRes.bind_ok]
    rw [ih (s := { s with pos := s.pos + 1 }) (by simp; omega)]
    have hadd : s.pos + 1 + m = s.pos + (m + 1) := by omega
    rw [hadd]

end Reader

/-! ### Claim theorems -/

/-- C3: for every 16-bit code `ResourceType::from(code).to_u16() == code`;
every code of the known type table maps to a named (non-Unknown) variant
whose extension is a non-empty short ASCII string; every code outside
the table maps to `Unknown(code)`, preserving the raw value. -/
theorem resourceType_registry_total_roundtrip :
    (∀ n : Nat, n < 65536 → (ResourceType.fromCode n).to_u16 = n)
    ∧ (∀ c ∈ knownResourceCodes,
        (ResourceType.fromCode c).isUnknown = false
        ∧ ((ResourceType.fromCode c).get_extension.getD "") ≠ ""
        ∧ shortAscii ((ResourceType.fromCode c).get_extension.getD ""))
    ∧ (∀ n : Nat, n ∉ knownResourceCodes →
        ResourceType.fromCode n = .Unknown n) := by
  refine ⟨?_, by decide, ?_⟩
  · intro n _
    unfold ResourceType.fromCode
    split <;> rfl
  · intro n hn
    unfold ResourceType.fromCode
    split <;> first | rfl | (exact absurd (by decide) hn)

/-- Witness for C3 at the concrete codes 0x3e8 (Bam) and 0x777
(not in the table). -/
theorem resourceType_registry_total_roundtrip_witness :
    (ResourceType.fromCode 0x3e8).to_u16 = 0x3e8
    ∧ ((ResourceType.fromCode 0x3e8).isUnknown = false
        ∧ ((ResourceType.fromCode 0x3e8).get_extension.getD "") ≠ ""
        ∧ shortAscii ((ResourceType.fromCode 0x3e8).get_extension.getD ""))
    ∧ ResourceType.fromCode 0x777 = .Unknown 0x777 :=
  ⟨resourceType_registry_total_roundtrip.1 0x3e8 (by decide),
   resourceType_registry_total_roundtrip.2.1 0x3e8 (by decide),
   resourceType_registry_total_roundtrip.2.2 0x777 (by decide)⟩

/-- C6: PVRZ import succeeds only for `pixel_format` 7 (DXT1) and 11
(DXT5); any other `u64` value read from the header yields an error that
names the unexpected value, and no `PvrzHeader` is produced. -/
theorem pvrz_pixel_format_rejection :
    ∀ (inflate : List Nat → List Nat) (s : ReaderState) (body : List Nat)
      (pf : Nat),
      body = inflate (s.data.drop (s.pos + 4)) →
      pf = Reader.leVal ((body.drop 8).take 8) →
      s.pos + 4 ≤ s.data.length →
      16 ≤ body.length →
      (pf ≠ 7 → pf ≠ 11 →
        PvrzImporter.import' inflate s =
          .err ("Unexpected pixel_format: " ++ Nat.repr pf))
      ∧ (52 ≤ body.length →
          (pf = 7 → ∃ h z, PvrzImporter.import' inflate s = .ok (h, z)
            ∧ h.pixel_format = .DXT1)
          ∧ (pf = 11 → ∃ h z, PvrzImporter.import' inflate s = .ok (h, z)
            ∧ h.pixel_format = .DXT5)) := by
  intro inflate s body pf hbody hpf hs4 h16
  have himp : PvrzImporter.import' inflate s =
      (Reader.read_u64 { data := body, pos := 8 }).bind fun (pfv, z3) =>
      (PvrDataCompression.from_u64 pfv).bind fun pixel_format =>
      (Reader.read_u32 z3).bind fun (color_space, z4) =>
      (Reader.read_u32 z4).bind fun (channel_type, z5) =>
      (Reader.read_u32 z5).bind fun (height, z6) =>
      (Reader.read_u32 z6).bind fun (width, z7) =>
      (Reader.read_u32 z7).bind fun (depth, z8) =>
      (Reader.read_u32 z8).bind fun (surfaces_number, z9) =>
      (Reader.read_u32 z9).bind fun (faces_number, z10) =>
      (Reader.read_u32 z10).bind fun (mip_map_count, z11) =>
      (Reader.read_u32 z11).bind fun (metadata_size, z12) =>
      .ok ({ version := Reader.leVal ((body.drop 0).take 4),
             flags := Reader.leVal ((body.drop 4).take 4),
             pixel_format, color_space, channel_type, height, width, depth,
             surfaces_number, faces_number, mip_map_count, metadata_size },
           z12) := by
    rw [PvrzImporter.import', Reader.read_u32_of_le (by omega)]
    simp only [RRes.bind_ok]
    rw [← hbody]
    rw [Reader.read_u32_of_le (s := ⟨body, 0⟩) (by simp; omega)]
    simp only [RRes.bind_ok]
    rw [Reader.read_u32_of_le (s := ⟨body, 4⟩) (by simp; omega)]
    simp only [RRes.bind_ok]
  have hu64 : Reader.read_u64 { data := body, pos := 8 } =
      .ok (pf, { data := body, pos := 16 }) := by
    rw [Reader.read_u64_of_le (by simpa using h16)]
    simp [hpf]
  constructor
  · intro h7 h11
    rw [himp, hu64]
    simp only [RRes.bind_ok]
    have : PvrDataCompression.from_u64 pf =
        .err ("Unexpected pixel_format: " ++ Nat.repr pf) := by
      unfold PvrDataCompression.from_u64
      split
      · exact absurd rfl h7
      · exact absurd rfl h11
      · rfl
    rw [this]
    rfl
  · intro h52
    have hreads : ∀ p : Nat, p + 4 ≤ 52 →
        Reader.read_u32 { data := body, pos := p } =
          .ok (Reader.leVal ((body.drop p).take 4),
               { data := body, pos := p + 4 }) := by
      intro p hp
      exact Reader.read_u32_of_le (by simp; omega)
    constructor
    · intro h7
      have hrun : PvrzImporter.import' inflate s = .ok
          ({ version := Reader.leVal ((body.drop 0).take 4),
             flags := Reader.leVal ((body.drop 4).take 4),
             pixel_format := .DXT1,
             color_space := Reader.leVal ((body.drop 16).take 4),
             channel_type := Reader.leVal ((body.drop 20).take 4),
             height := Reader.leVal ((body.drop 24).take 4),
             width := Reader.leVal ((body.drop 28).take 4),
             depth := Reader.leVal ((body.drop 32).take 4),
             surfaces_number := Reader.leVal ((body.drop 36).take 4),
             faces_number := Reader.leVal ((body.drop 40).take 4),
             mip_map_count := Reader.leVal ((body.drop 44).take 4),
             metadata_size := Reader.leVal ((body.drop 48).take 4) },
           { data := body, pos := 52 }) := by
        rw [himp, hu64]
        simp only [RRes.bind_ok]
        rw [h7]
        simp only [PvrDataCompression.from_u64, RRes.bind_ok]
        rw [hreads 16 (by omega)]; simp only [RRes.bind_ok]
        rw [hreads 20 (by omega)]; simp only [RRes.bind_ok]
        rw [hreads 24 (by omega)]; simp only [RRes.bind_ok]
        rw [hreads 28 (by omega)]; simp only [RRes.bind_ok]
        rw [hreads 32 (by omega)]; simp only [RRes.bind_ok]
        rw [hreads 36 (by omega)]; simp only [RRes.bind_ok]
        rw [hreads 40 (by omega)]; simp only [RRes.bind_ok]
        rw [hreads 44 (by omega)]; simp only [RRes.bind_ok]
        rw [hreads 48 (by omega)]; simp only [RRes.bind_ok]
      exact ⟨_, _, hrun, rfl⟩
    · intro h11
      have hrun : PvrzImporter.import' inflate s = .ok
          ({ version := Reader.leVal ((body.drop 0).take 4),
             flags := Reader.leVal ((body.drop 4).take 4),
             pixel_format := .DXT5,
             color_space := Reader.leVal ((body.drop 16).take 4),
             channel_type := Reader.leVal ((body.drop 20).take 4),
             height := Reader.leVal ((body.drop 24).take 4),
             width := Reader.leVal ((body.drop 28).take 4),
             depth := Reader.leVal ((body.drop 32).take 4),
             surfaces_number := Reader.leVal ((body.drop 36).take 4),
             faces_number := Reader.leVal ((body.drop 40).take 4),
             mip_map_count := Reader.leVal ((body.drop 44).take 4),
             metadata_size := Reader.leVal ((body.drop 48).take 4) },
           { data := body, pos := 52 }) := by
        rw [himp, hu64]
        simp only [RRes.bind_ok]
        rw [h11]
        simp only [PvrDataCompression.from_u64, RRes.bind_ok]
        rw [hreads 16 (by omega)]; simp only [RRes.bind_ok]
        rw [hreads 20 (by omega)]; simp only [RRes.bind_ok]
        rw [hreads 24 (by omega)]; simp only [RRes.bind_ok]
        rw [hreads 28 (by omega)]; simp only [RRes.bind_ok]
        rw [hreads 32 (by omega)]; simp only [RRes.bind_ok]
        rw [hreads 36 (by omega)]; simp only [RRes.bind_ok]
        rw [hreads 40 (by omega)]; simp only [RRes.bind_ok]
        rw [hreads 44 (by omega)]; simp only [RRes.bind_ok]
        rw [hreads 48 (by omega)]; simp only [RRes.bind_ok]
      exact ⟨_, _, hrun, rfl⟩

/-- C2: decoding a BAMC stream equals running the BAM v1 parser on the
zlib decompression of the payload found after the 12-byte BAMC header
(8-byte signature plus the advisory `uncompressed_size`), wrapped as a
`Bam::V1` record. -/
theorem bamc_equals_bamv1_on_inflated_payload :
    ∀ (inflate : List Nat → List Nat) (s : ReaderState),
      Reader.stripTrailingNuls (((s.data.drop s.pos).take 8).map (· % 256)) =
        BAMC_SIGNATURE →
      s.pos + 12 ≤ s.data.length →
      BamcParser.import' inflate s =
        (BamV1Parser.import' ⟨inflate (s.data.drop (s.pos + 12)), 0⟩).map
          fun p => (Bam.V1 p.1, p.2) := by
  intro inflate s hsig hlen
  have hm : min (s.pos + 8) s.data.length = s.pos + 8 := by omega
  have hsig8 : Reader.read_string 8 s =
      .ok (BAMC_SIGNATURE, { s with pos := s.pos + 8 }) := by
    have hdef : Reader.read_string 8 s = .ok (Reader.stripTrailingNuls
        (((s.data.drop s.pos).take 8).map (· % 256)),
      { s with pos := min (s.pos + 8) s.data.length }) := rfl
    rw [hdef, hsig, hm]
  rw [BamcParser.import', hsig8]
  simp only [RRes.bind_ok]
  rw [if_neg (by decide)]
  rw [Reader.read_u32_of_le (s := { s with pos := s.pos + 8 })
    (by simp; omega)]
  simp only [RRes.bind_ok]
  rw [BamImporter.from_reader]

/-- Witness for C2 at the concrete 12-byte BAMC header `exBamc` with a
decompressor returning the concrete BAM v1 file `exBam1`. -/
theorem bamc_equals_bamv1_on_inflated_payload_witness :
    BamcParser.import' (fun _ => exBam1) ⟨exBamc, 0⟩ =
      (BamV1Parser.import' ⟨exBam1, 0⟩).map fun p => (Bam.V1 p.1, p.2) :=
  bamc_equals_bamv1_on_inflated_payload (fun _ => exBam1) ⟨exBamc, 0⟩
    (by decide) (by decide)

/-- Step equation: the loop stops as soon as `size` entries exist. -/
theorem readPixels_step_stop (c : Bool) (rle size : Nat) (rem acc : List Nat)
    (hge : ¬acc.length < size) :
    BamV1Parser.readPixels c rle size rem acc = .ok (acc, rem) := by
  rw [BamV1Parser.readPixels.eq_def, if_neg hge]

/-- Step equation: end of stream while entries are still missing. -/
theorem readPixels_step_nil (c : Bool) (rle size : Nat) (acc : List Nat)
    (hlt : acc.length < size) :
    BamV1Parser.readPixels c rle size [] acc =
      .err "failed to fill whole buffer" := by
  rw [BamV1Parser.readPixels.eq_def, if_pos hlt]

/-- Step equation: a marker byte at the very end of the stream. -/
theorem readPixels_step_one (c : Bool) (rle size : Nat) (b : Nat)
    (acc : List Nat) (hlt : acc.length < size)
    (hc : c = true ∧ b % 256 = rle) :
    BamV1Parser.readPixels c rle size [b] acc =
      .err "failed to fill whole buffer" := by
  rw [BamV1Parser.readPixels.eq_def]
  simp only [if_pos hlt, if_pos hc]

/-- Step equation: an RLE run appends `n % 256 + 1` marker pixels. -/
theorem readPixels_step_run (c : Bool) (rle size : Nat) (b n : Nat)
    (bs acc : List Nat) (hlt : acc.length < size)
    (hc : c = true ∧ b % 256 = rle) :
    BamV1Parser.readPixels c rle size (b :: n :: bs) acc =
      BamV1Parser.readPixels c rle size bs
        (acc ++ List.replicate (n % 256 + 1) (b % 256)) := by
  conv_lhs => rw [BamV1Parser.readPixels.eq_def]
  simp only [if_pos hlt, if_pos hc]

/-- Step equation: a literal byte is a single pixel. -/
theorem readPixels_step_lit (c : Bool) (rle size : Nat) (b : Nat)
    (bs acc : List Nat) (hlt : acc.length < size)
    (hc : ¬(c = true ∧ b % 256 = rle)) :
    BamV1Parser.readPixels c rle size (b :: bs) acc =
      BamV1Parser.readPixels c rle size bs (acc ++ [b % 256]) := by
  conv_lhs => rw [BamV1Parser.readPixels.eq_def]
  simp only [if_pos hlt, if_neg hc]

/-- Every RLE-decoded bitmap reaches at least `size` entries: the loop
only stops once `acc.length < size` fails. -/
theorem readPixels_ge (compressed : Bool) (rle size : Nat) :
    ∀ (rem acc : List Nat) {px rem' : List Nat},
      BamV1Parser.readPixels compressed rle size rem acc = .ok (px, rem') →
      size ≤ px.length := by
  intro rem acc
  induction rem, acc using BamV1Parser.readPixels.induct compressed rle size with
  | case1 acc hlt =>
    intro px rem' h
    rw [readPixels_step_nil _ _ _ _ hlt] at h
    cases h
  | case2 acc hlt b hb =>
    intro px rem' h
    rw [readPixels_step_one _ _ _ _ _ hlt hb] at h
    cases h
  | case3 acc hlt b hb n bs ih =>
    intro px rem' h
    rw [readPixels_step_run _ _ _ _ _ _ _ hlt hb] at h
    exact ih h
  | case4 acc hlt b bs hb ih =>
    intro px rem' h
    rw [readPixels_step_lit _ _ _ _ _ _ hlt hb] at h
    exact ih h
  | case5 t acc hge =>
    intro px rem' h
    rw [readPixels_step_stop _ _ _ _ _ hge] at h
    cases h
    omega

/-- Every RLE-decoded bitmap overshoots `size` by at most 255 entries:
an iteration appends at most 256 entries and starts below `size`. -/
theorem readPixels_le (compressed : Bool) (rle size : Nat) :
    ∀ (rem acc : List Nat) {px rem' : List Nat},
      acc.length ≤ size + 255 →
      BamV1Parser.readPixels compressed rle size rem acc = .ok (px, rem') →
      px.length ≤ size + 255 := by
  intro rem acc
  induction rem, acc using BamV1Parser.readPixels.induct compressed rle size with
  | case1 acc hlt =>
    intro px rem' hacc h
    rw [readPixels_step_nil _ _ _ _ hlt] at h
    cases h
  | case2 acc hlt b hb =>
    intro px rem' hacc h
    rw [readPixels_step_one _ _ _ _ _ hlt hb] at h
    cases h
  | case3 acc hlt b hb n bs ih =>
    intro px rem' hacc h
    rw [readPixels_step_run _ _ _ _ _ _ _ hlt hb] at h
    refine ih ?_ h
    have hn : n % 256 + 1 ≤ 256 := by
      have := Nat.mod_lt n (y := 256) (by omega)
      omega
    simp only [List.length_append, List.length_replicate]
    omega
  | case4 acc hlt b bs hb ih =>
    intro px rem' hacc h
    rw [readPixels_step_lit _ _ _ _ _ _ hlt hb] at h
    refine ih ?_ h
    simp only [List.length_append, List.length_cons, List.length_nil]
    omega
  | case5 t acc hge =>
    intro px rem' hacc h
    rw [readPixels_step_stop _ _ _ _ _ hge] at h
    cases h
    omega

/-- The frame loop preserves the pixel-count bounds for every frame it
appends. -/
theorem readFramesLoop_bounds :
    ∀ (count rle : Nat) (acc : List BamV1Frame) (s : ReaderState)
      {frames : List BamV1Frame} {s' : ReaderState},
      BamV1Parser.readFramesLoop count rle acc s = .ok (frames, s') →
      (∀ f ∈ acc, f.width * f.height ≤ f.pixel_palette_indexes.length
        ∧ f.pixel_palette_indexes.length ≤ f.width * f.height + 255) →
      ∀ f ∈ frames, f.width * f.height ≤ f.pixel_palette_indexes.length
        ∧ f.pixel_palette_indexes.length ≤ f.width * f.height + 255 := by
  intro count
  induction count with
  | zero =>
    intro rle acc s frames s' h hacc
    rw [BamV1Parser.readFramesLoop] at h
    cases h
    exact hacc
  | succ n ih =>
    intro rle acc s frames s' h hacc
    rw [BamV1Parser.readFramesLoop] at h
    obtain ⟨⟨w, s1⟩, hw, h⟩ := RRes.bind_eq_ok h
    obtain ⟨⟨ht, s2⟩, hht, h⟩ := RRes.bind_eq_ok h
    obtain ⟨⟨cx, s3⟩, hcx, h⟩ := RRes.bind_eq_ok h
    obtain ⟨⟨cy, s4⟩, hcy, h⟩ := RRes.bind_eq_ok h
    obtain ⟨⟨db, s5⟩, hdb, h⟩ := RRes.bind_eq_ok h
    simp only [Reader.position, Reader.set_position, RRes.bind_ok] at h
    obtain ⟨⟨px, rem⟩, hpx, h⟩ := RRes.bind_eq_ok h
    refine ih rle _ _ h ?_
    intro f hf
    rcases List.mem_append.mp hf with hmem | hmem
    · exact hacc f hmem
    · have hfe : f = ⟨w, ht, cx, cy, px⟩ := by simpa using hmem
      subst hfe
      exact ⟨readPixels_ge _ _ _ _ _ hpx,
        readPixels_le _ _ _ _ _ (by simp) hpx⟩

/-- C1 (amended): every frame decoded by `BamV1Parser::import` has a
palette-index bitmap of length at least `width * height` and at most
`width * height + 255`; the length can exceed `width * height` because a
final RLE run is appended whole, without truncation. -/
theorem bamv1_frame_pixel_count (s : ReaderState) (bam : BamV1)
    (s' : ReaderState) (h : BamV1Parser.import' s = .ok (bam, s')) :
    ∀ f ∈ bam.frames,
      f.width * f.height ≤ f.pixel_palette_indexes.length
      ∧ f.pixel_palette_indexes.length ≤ f.width * f.height + 255 := by
  unfold BamV1Parser.import' at h
  obtain ⟨⟨sig, s1⟩, hsig, h⟩ := RRes.bind_eq_ok h
  simp only [ne_eq] at h
  by_cases hcase : sig = BamType.BamV1.signature
  case neg =>
    rw [if_pos hcase] at h
    cases h
  case pos =>
    rw [if_neg (by simpa using hcase)] at h
    obtain ⟨⟨fc, s2⟩, hfc, h⟩ := RRes.bind_eq_ok h
    obtain ⟨⟨cc, s3⟩, hcc, h⟩ := RRes.bind_eq_ok h
    obtain ⟨⟨rle, s4⟩, hrle, h⟩ := RRes.bind_eq_ok h
    obtain ⟨⟨fo, s5⟩, hfo, h⟩ := RRes.bind_eq_ok h
    obtain ⟨⟨po, s6⟩, hpo, h⟩ := RRes.bind_eq_ok h
    obtain ⟨⟨lo, s7⟩, hlo, h⟩ := RRes.bind_eq_ok h
    obtain ⟨⟨pal, s8⟩, hpal, h⟩ := RRes.bind_eq_ok h
    simp only [Reader.set_position, RRes.bind_ok] at h
    obtain ⟨⟨frames, s10⟩, hframes, h⟩ := RRes.bind_eq_ok h
    obtain ⟨⟨cycles, s11⟩, hcycles, h⟩ := RRes.bind_eq_ok h
    cases h
    exact readFramesLoop_bounds _ _ _ _ hframes (by simp)

/-- Counterexample for C1 as stated: on the concrete file `exBam1` the
single compressed 2×1 frame decodes to 4 palette indices, because the
final RLE run `[0, 3]` emits 4 pixels, not the 2 remaining. -/
theorem bamv1_frame_pixel_count_counterexample :
    (BamV1Parser.import' ⟨exBam1, 0⟩).map
        (fun r => r.1.frames.map fun f =>
          (f.width, f.height, f.pixel_palette_indexes.length)) =
      .ok [(2, 1, 4)]
    ∧ (4 : Nat) ≠ 2 * 1 := ⟨by decide, by decide⟩

/-- Witness for C1 (amended) on the concrete file `exBam1`, whose single
frame is 2×1 with 4 decoded palette indices. -/
theorem bamv1_frame_pixel_count_witness :
    (2 : Nat) * 1 ≤ 4 ∧ (4 : Nat) ≤ 2 * 1 + 255 :=
  bamv1_frame_pixel_count ⟨exBam1, 0⟩ _ _ rfl
    ⟨2, 1, 0, 0, [0, 0, 0, 0]⟩ (by decide)

/-- Peeling one element off a mapped range from the left. -/
theorem range_map_succ_shift {α : Type} (g : Nat → α) (n : Nat) :
    (List.range (n + 1)).map g = g 0 :: (List.range n).map fun j => g (j + 1) := by
  rw [List.range_succ_eq_map, List.map_cons, List.map_map]
  congr 1

/-- Setting one position of a mapped range. -/
theorem map_range_set {α : Type} (f : Nat → α) (n k : Nat) (v : α)
    (hk : k < n) :
    ((List.range n).map f).set k v =
      (List.range n).map fun j => if j = k then v else f j := by
  apply List.ext_getElem
  · simp
  · intro j hj1 hj2
    simp only [List.getElem_set, List.getElem_map, List.getElem_range]
    by_cases hjk : j = k
    · subst hjk
      simp
    · rw [if_neg (by omega), if_neg hjk]

/-- Full characterization of the palette read loop: it reads `count`
4-byte entries from the cursor and folds the transparency-index update
over them. -/
theorem readPaletteLoop_spec (data : List Nat) (po : Nat) :
    ∀ (count i ti : Nat) (acc : List Rgb) (s : ReaderState),
      s.data = data → s.pos = po + 4 * i →
      s.pos + 4 * count ≤ s.data.length →
      BamV1Parser.readPaletteLoop count i ti acc s =
        .ok ((acc ++ (List.range count).map fun j => loadedRgb data po (i + j),
              tiFold data po count i ti),
             { s with pos := s.pos + 4 * count }) := by
  intro count
  induction count with
  | zero =>
    intro i ti acc s hdata hpos hlen
    rw [BamV1Parser.readPaletteLoop]
    simp [tiFold]
  | succ n ih =>
    intro i ti acc s hdata hpos hlen
    rw [BamV1Parser.readPaletteLoop]
    rw [Reader.read_u8_eq_ok (by omega)]
    simp only [RRes.bind_ok]
    rw [Reader.read_u8_eq_ok (by simp; omega)]
    simp only [RRes.bind_ok]
    rw [Reader.read_u8_eq_ok (by simp; omega)]
    simp only [RRes.bind_ok]
    rw [Reader.read_u8_eq_ok (by simp; omega)]
    simp only [RRes.bind_ok]
    dsimp only
    rw [ih (i + 1) _ _ _ (by simp [hdata]) (by simp; omega) (by simp; omega)]
    have hentry : (⟨byteAt s.data (s.pos + 1 + 1), byteAt s.data (s.pos + 1),
        byteAt s.data s.pos,
        if byteAt s.data (s.pos + 1 + 1 + 1) = 0 then 255
        else byteAt s.data (s.pos + 1 + 1 + 1)⟩ : Rgb) =
        loadedRgb data po i := by
      unfold loadedRgb
      rw [hdata, hpos]
    have hgreen : (byteAt s.data (s.pos + 1 + 1) = 0
        ∧ byteAt s.data (s.pos + 1) = 255 ∧ byteAt s.data s.pos = 0)
        ↔ isGreenAt data po i := by
      unfold isGreenAt
      rw [hdata, hpos]
    have hti : (if ti = 0 ∧ byteAt s.data (s.pos + 1 + 1) = 0
          ∧ byteAt s.data (s.pos + 1) = 255 ∧ byteAt s.data s.pos = 0
        then i else ti) =
        (if ti = 0 ∧ isGreenAt data po i then i else ti) := by
      by_cases hc : ti = 0 ∧ isGreenAt data po i
      · rw [if_pos hc, if_pos ⟨hc.1, hgreen.mpr hc.2⟩]
      · rw [if_neg hc, if_neg (fun hx => hc ⟨hx.1, hgreen.mp hx.2⟩)]
    simp only [Prod.mk.injEq, RRes.ok.injEq]
    refine ⟨⟨?_, ?_⟩, ?_⟩
    · rw [hentry]
      rw [range_map_succ_shift (fun j => loadedRgb data po (i + j)) n]
      have hf : (fun j => loadedRgb data po (i + (j + 1))) =
          fun j => loadedRgb data po (i + 1 + j) := by
        funext j
        rw [show i + (j + 1) = i + 1 + j from by omega]
      rw [hf]
      simp [List.append_assoc]
    · rw [hti]
      rfl
    · simp only [ReaderState.mk.injEq]
      exact ⟨by trivial, by omega⟩

/-- A nonzero transparency index is final. -/
theorem tiFold_ne_zero (data : List Nat) (po : Nat) :
    ∀ (n i ti : Nat), ti ≠ 0 → tiFold data po n i ti = ti := by
  intro n
  induction n with
  | zero => intro i ti h; rfl
  | succ m ih =>
    intro i ti h
    rw [tiFold, if_neg (fun hc => h hc.1)]
    exact ih (i + 1) ti h

/-- Starting at a positive index with value 0, the fold finds the first
green entry (or stays 0). -/
theorem tiFold_pos (data : List Nat) (po : Nat) :
    ∀ (n i : Nat), 1 ≤ i →
      tiFold data po n i 0 =
        ((List.range' i n).find? fun j => decide (isGreenAt data po j)).getD 0 := by
  intro n
  induction n with
  | zero => intro i hi; rfl
  | succ m ih =>
    intro i hi
    rw [tiFold, List.range'_succ, List.find?_cons]
    by_cases hg : isGreenAt data po i
    · rw [if_pos ⟨rfl, hg⟩]
      have hd : decide (isGreenAt data po i) = true := by
        simpa using hg
      rw [hd]
      exact tiFold_ne_zero data po m (i + 1) i (by omega)
    · rw [if_neg (fun hc => hg hc.2)]
      have hd : decide (isGreenAt data po i) = false := by
        simpa using hg
      rw [hd]
      exact ih (i + 1) (by omega)

/-- The loop's transparency index is `transparencyIndexCode`: the first
green entry among positions 1 and above, or 0. -/
theorem tiFold_zero_eq (data : List Nat) (po n : Nat) :
    tiFold data po n 0 0 = transparencyIndexCode data po n := by
  cases n with
  | zero => rfl
  | succ m =>
    rw [tiFold]
    have hz : (if (0 : Nat) = 0 ∧ isGreenAt data po 0 then 0 else 0) = 0 := by
      by_cases hc : (0 : Nat) = 0 ∧ isGreenAt data po 0
      · rw [if_pos hc]
      · rw [if_neg hc]
    rw [hz, tiFold_pos data po m 1 (by omega)]
    unfold transparencyIndexCode
    congr 1

/-- The code's transparency index is within the palette whenever the
palette is nonempty. -/
theorem transparencyIndexCode_lt (data : List Nat) (po n : Nat)
    (hn : 1 ≤ n) : transparencyIndexCode data po n < n := by
  unfold transparencyIndexCode
  cases hf : (List.range' 1 (n - 1)).find?
      fun j => decide (isGreenAt data po j) with
  | none => simpa using hn
  | some j =>
    have hmem := List.mem_of_find?_eq_some hf
    have := List.mem_range'_1.mp hmem
    simp only [Option.getD_some]
    omega

/-- C7 (amended): after the palette is loaded, the stage returns the
alpha-remapped entries with the entry at `transparencyIndexCode`
overwritten to `(0, 255, 0, 0)`.  Because the scan guard is
`transparency_index == 0`, the index is the first pure-green position
among positions 1 and above (0 when none exists), so a green entry at
position 0 does not lock the index. -/
theorem bamv1_palette_transparency (s : ReaderState) (po lo : Nat)
    (h4 : po + 4 ≤ lo)
    (hlen : po + 4 * min 256 ((lo - po) / 4) ≤ s.data.length) :
    BamV1Parser.paletteStage po lo s =
      .ok ((List.range (min 256 ((lo - po) / 4))).map
            (fun i =>
              if i = transparencyIndexCode s.data po (min 256 ((lo - po) / 4))
              then ⟨0, 255, 0, 0⟩ else loadedRgb s.data po i),
           { s with pos := po + 4 * min 256 ((lo - po) / 4) }) := by
  have hn1 : 1 ≤ min 256 ((lo - po) / 4) := by
    have : 1 ≤ (lo - po) / 4 := by
      rw [Nat.le_div_iff_mul_le (by omega)]
      omega
    omega
  unfold BamV1Parser.paletteStage
  rw [checkedSub_le (by omega)]
  simp only [RRes.bind_ok, Reader.set_position]
  rw [readPaletteLoop_spec s.data po (min 256 ((lo - po) / 4)) 0 0 []
    { s with pos := po } rfl (by simp) (by simp; omega)]
  simp only [RRes.bind_ok, List.nil_append]
  rw [tiFold_zero_eq]
  have hti := transparencyIndexCode_lt s.data po (min 256 ((lo - po) / 4)) hn1
  rw [dif_pos (by simpa using hti)]
  rw [map_range_set _ _ _ _ hti]
  simp only [Nat.zero_add]

/-- Witness for C7 (amended) at the palette stage of the concrete file
`exBam7` (two palette entries, both pure green): the loop picks index 1,
overwrites it, and keeps entry 0 with its remapped alpha. -/
theorem bamv1_palette_transparency_witness :
    BamV1Parser.paletteStage 24 32 ⟨exBam7, 24⟩ =
      .ok ((List.range (min 256 ((32 - 24) / 4))).map
            (fun i =>
              if i = transparencyIndexCode exBam7 24 (min 256 ((32 - 24) / 4))
              then ⟨0, 255, 0, 0⟩ else loadedRgb exBam7 24 i),
           ⟨exBam7, 24 + 4 * min 256 ((32 - 24) / 4)⟩) :=
  bamv1_palette_transparency ⟨exBam7, 24⟩ 24 32 (by decide) (by decide)

/-- Counterexample for C7 as stated: in `exBam7` the first pure-green
palette position is 0, yet the loaded palette keeps entry 0 as
`(0, 255, 0, 7)` (its stored alpha 7) and overwrites entry 1 instead,
because the scan guard `transparency_index == 0` lets a later green
entry override a green entry at position 0. -/
theorem bamv1_palette_transparency_counterexample :
    BamV1Parser.paletteStage 24 32 ⟨exBam7, 24⟩ =
      .ok ([⟨0, 255, 0, 7⟩, ⟨0, 255, 0, 0⟩], ⟨exBam7, 32⟩)
    ∧ firstGreenIndex exBam7 24 2 = 0
    ∧ (⟨0, 255, 0, 7⟩ : Rgb) ≠ ⟨0, 255, 0, 0⟩ :=
  ⟨by decide, by decide, by decide⟩

/-- The palette loop itself never panics: it either runs out of input
(an `io::Error`) or returns a palette of `acc.length + count` entries
with a transparency index inside it. -/
theorem readPaletteLoop_cases :
    ∀ (count i ti : Nat) (acc : List Rgb) (s : ReaderState),
      ti = 0 ∨ ti < i →
      (∃ m, BamV1Parser.readPaletteLoop count i ti acc s = .err m)
      ∨ (∃ p ti' s', BamV1Parser.readPaletteLoop count i ti acc s =
            .ok ((p, ti'), s')
          ∧ p.length = acc.length + count ∧ (ti' = 0 ∨ ti' < i + count)) := by
  intro count
  induction count with
  | zero =>
    intro i ti acc s hti
    right
    exact ⟨acc, ti, s, rfl, by simp, by omega⟩
  | succ n ih =>
    intro i ti acc s hti
    rw [BamV1Parser.readPaletteLoop]
    rcases Reader.read_u8_cases s with ⟨b, s1, hb⟩ | ⟨m, hm⟩
    swap
    · rw [hm]; exact .inl ⟨m, rfl⟩
    rw [hb]; simp only [RRes.bind_ok]
    rcases Reader.read_u8_cases s1 with ⟨g, s2, hg⟩ | ⟨m, hm⟩
    swap
    · rw [hm]; exact .inl ⟨m, rfl⟩
    rw [hg]; simp only [RRes.bind_ok]
    rcases Reader.read_u8_cases s2 with ⟨r, s3, hr⟩ | ⟨m, hm⟩
    swap
    · rw [hm]; exact .inl ⟨m, rfl⟩
    rw [hr]; simp only [RRes.bind_ok]
    rcases Reader.read_u8_cases s3 with ⟨a0, s4, ha⟩ | ⟨m, hm⟩
    swap
    · rw [hm]; exact .inl ⟨m, rfl⟩
    rw [ha]; simp only [RRes.bind_ok]
    have hti' : (if ti = 0 ∧ r = 0 ∧ g = 255 ∧ b = 0 then i else ti) = 0
        ∨ (if ti = 0 ∧ r = 0 ∧ g = 255 ∧ b = 0 then i else ti) < i + 1 := by
      by_cases hc : ti = 0 ∧ r = 0 ∧ g = 255 ∧ b = 0
      · rw [if_pos hc]; omega
      · rw [if_neg hc]; omega
    rcases ih (i + 1) _ (acc ++ [⟨r, g, b, if a0 = 0 then 255 else a0⟩]) s4
        hti' with ⟨m, hm⟩ | ⟨p, ti', s', hok, hlen, hbound⟩
    · exact .inl ⟨m, hm⟩
    · refine .inr ⟨p, ti', s', hok, ?_, ?_⟩
      · simp at hlen
        omega
      · omega

/-- C9: the palette stage of `BamV1Parser::import` panics exactly when
`palette_offset + 4 > lookup_offset`: when `palette_offset` exceeds
`lookup_offset` the checked subtraction underflows, and when the span
holds no full entry the unconditional `palette[transparency_index]`
overwrite indexes an empty vector; in both cases the outcome is a panic,
never an `io::Error`. -/
theorem bamv1_palette_panics_iff (po lo : Nat) (s : ReaderState) :
    (BamV1Parser.paletteStage po lo s).isFatal = true ↔ lo < po + 4 := by
  constructor
  · intro h
    by_contra hge
    have h4 : po + 4 ≤ lo := by omega
    unfold BamV1Parser.paletteStage at h
    rw [checkedSub_le (by omega)] at h
    simp only [RRes.bind_ok, Reader.set_position] at h
    have hn1 : 1 ≤ min 256 ((lo - po) / 4) := by
      have : 1 ≤ (lo - po) / 4 := by
        rw [Nat.le_div_iff_mul_le (by omega)]
        omega
      omega
    rcases readPaletteLoop_cases (min 256 ((lo - po) / 4)) 0 0 []
        { s with pos := po } (.inl rfl) with ⟨m, hm⟩ | ⟨p, ti', s', hok, hlen, hbound⟩
    · rw [hm] at h
      simp [RRes.isFatal] at h
    · rw [hok] at h
      simp only [RRes.bind_ok] at h
      rw [dif_pos (by simp at hlen; omega)] at h
      simp [RRes.isFatal] at h
  · intro hlt
    unfold BamV1Parser.paletteStage
    by_cases hlo : lo < po
    · rw [checkedSub_gt hlo]
      rfl
    · rw [checkedSub_le (by omega)]
      have hdiv : (lo - po) / 4 = 0 := by
        apply Nat.div_eq_of_lt
        omega
      simp only [RRes.bind_ok, Reader.set_position, hdiv]
      rw [show min 256 0 = 0 from rfl]
      rw [BamV1Parser.readPaletteLoop]
      simp only [RRes.bind_ok]
      rw [dif_neg (by simp)]
      rfl

/-- `tuple_windows` on a two-or-more element list peels one pair. -/
theorem tupleWindows_cons (c0 x : Nat) (xs : List Nat) :
    tupleWindows (c0 :: x :: xs) = (c0, x) :: tupleWindows (x :: xs) := rfl

/-- Inversion of one `parseCells` step: a parsed cell is the default for
a past-end start, else the trimmed slice with empty cells defaulted. -/
theorem parseCells_cons_ok {line default : List Nat} {s e : Nat}
    {ws : List (Nat × Nat)} {cells : List (List Nat)}
    (h : parseCells line default ((s, e) :: ws) = .ok cells) :
    ∃ cells', parseCells line default ws = .ok cells'
      ∧ cells = (if line.length ≤ s then default
          else if trimBytes (sliceBytes line s e) = [] then default
          else trimBytes (sliceBytes line s e)) :: cells' := by
  unfold parseCells at h
  by_cases h1 : line.length ≤ s
  · rw [if_pos h1] at h
    obtain ⟨cells', hc, hcons⟩ := RRes.map_eq_ok h
    exact ⟨cells', hc, by rw [hcons, if_pos h1]⟩
  · rw [if_neg h1] at h
    by_cases h2 : s ≤ e ∧ e ≤ line.length
    · rw [if_pos h2] at h
      obtain ⟨cells', hc, hcons⟩ := RRes.map_eq_ok h
      refine ⟨cells', hc, ?_⟩
      rw [hcons, if_neg h1]
    · rw [if_neg h2] at h
      cases h

/-- Index shift of the claimed cell value along the column list. -/
theorem specCell_cons (line default : List Nat) (c0 : Nat)
    (rest : List Nat) (i : Nat) :
    specCell line (c0 :: rest) default (i + 1) =
      specCell line rest default i := by
  unfold specCell
  simp only [List.getD_cons_succ, List.length_cons]
  have hc : (i + 1 + 1 < rest.length + 1) = (i + 1 < rest.length) := by
    simp [Nat.succ_lt_succ_iff]
  simp only [hc]

/-- The cell loop matches the claimed cell values, column by column. -/
theorem parseCells_spec (line default : List Nat) :
    ∀ (cs : List Nat) (cells : List (List Nat)),
      parseCells line default (tupleWindows (cs ++ [line.length])) =
        .ok cells →
      cells.length = cs.length
      ∧ ∀ i, i < cs.length → cells.getD i [] = specCell line cs default i := by
  intro cs
  induction cs with
  | nil =>
    intro cells h
    have h' : parseCells line default [] = .ok cells := h
    unfold parseCells at h'
    cases h'
    exact ⟨rfl, fun i hi => absurd hi (by simp)⟩
  | cons c0 rest ih =>
    intro cells h
    have hwin : tupleWindows ((c0 :: rest) ++ [line.length]) =
        (c0, (rest ++ [line.length]).headI)
          :: tupleWindows (rest ++ [line.length]) := by
      cases rest with
      | nil => rfl
      | cons r0 rest' => rfl
    rw [hwin] at h
    obtain ⟨cells', hc, hcons⟩ := parseCells_cons_ok h
    obtain ⟨hlen, hcell⟩ := ih cells' hc
    subst hcons
    refine ⟨by simp [hlen], ?_⟩
    intro i hi
    cases i with
    | zero =>
      have he : (rest ++ [line.length]).headI =
          (if 0 + 1 < (c0 :: rest).length then (c0 :: rest).getD (0 + 1) 0
           else line.length) := by
        cases rest with
        | nil => simp
        | cons r0 rest' => simp
      simp only [List.getD_cons_zero]
      rw [he]
      rfl
    | succ j =>
      have hj : j < rest.length := by
        simpa using hi
      rw [specCell_cons]
      simpa using hcell j hj

/-- C8: for every 2DA data row accepted by `parse_data_row` and every
column index, the stored cell value is the trimmed substring of the row
line over `[columns[i], columns[i+1])` (the last column extending to end
of line), with cells that are empty or start past the end of the line
replaced by the default value. -/
theorem parse_data_row_cells (line columns default : List Nat)
    (key : List Nat) (cells : List (List Nat))
    (h : parse_data_row line columns default = .ok (key, cells)) :
    cells.length = columns.length
    ∧ ∀ i, i < columns.length →
        cells.getD i [] = specCell line columns default i := by
  unfold parse_data_row at h
  cases columns with
  | nil => cases h
  | cons c0 rest =>
    obtain ⟨cells', hc, hpair⟩ := RRes.map_eq_ok h
    have hcells : cells = cells' := congrArg Prod.snd hpair
    subst hcells
    exact parseCells_spec line default (c0 :: rest) cells hc

/-- Witness for C8 on the row `"AB 1 2"` with columns `[3, 5]`: the
second cell is the trimmed byte slice `[5, 6)`. -/
theorem parse_data_row_cells_witness :
    [[49], [50]].getD 1 [] = specCell exRowLine [3, 5] [48] 1 :=
  (parse_data_row_cells exRowLine [3, 5] [48] [65, 66] [[49], [50]]
    (by decide)).2 1 (by decide)

/-- Key-targeted replacement leaves lookups of other keys unchanged. -/
theorem find?_map_replace {β : Type} (m : List (List Nat × β))
    (k k' : List Nat) (v : β) (hk : k' ≠ k) :
    ((m.map fun q => if q.1 = k then (k, v) else q).find?
        fun q => q.1 = k') = m.find? fun q => q.1 = k' := by
  induction m with
  | nil => rfl
  | cons q m' ih =>
    by_cases hq : q.1 = k
    · rw [List.map_cons, if_pos hq,
        List.find?_cons_of_neg _ (by simpa using Ne.symm hk),
        List.find?_cons_of_neg _ (by simpa [hq] using Ne.symm hk)]
      exact ih
    · rw [List.map_cons, if_neg hq]
      by_cases hq' : q.1 = k'
      · rw [List.find?_cons_of_pos _ (by simpa using hq'),
          List.find?_cons_of_pos _ (by simpa using hq')]
      · rw [List.find?_cons_of_neg _ (by simpa using hq'),
          List.find?_cons_of_neg _ (by simpa using hq')]
        exact ih

/-- A lookup for a key other than the appended one ignores the tail. -/
theorem find?_append_single {β : Type} (m : List (List Nat × β))
    (k k' : List Nat) (v : β) (hk : k' ≠ k) :
    ((m ++ [(k, v)]).find? fun q => q.1 = k') =
      m.find? fun q => q.1 = k' := by
  induction m with
  | nil =>
    rw [List.nil_append,
      List.find?_cons_of_neg _ (by simpa using Ne.symm hk)]
  | cons q m' ih =>
    rw [List.cons_append]
    by_cases hq' : q.1 = k'
    · rw [List.find?_cons_of_pos _ (by simpa using hq'),
        List.find?_cons_of_pos _ (by simpa using hq')]
    · rw [List.find?_cons_of_neg _ (by simpa using hq'),
        List.find?_cons_of_neg _ (by simpa using hq')]
      exact ih

/-- Inserting under a fresh head key commutes with `cons`. -/
theorem mapInsert_cons_ne {α β : Type} [DecidableEq α] (p : α × β)
    (m : List (α × β)) (k : α) (v : β) (hp : ¬p.1 = k) :
    mapInsert (p :: m) k v = p :: mapInsert m k v := by
  unfold mapInsert
  by_cases ha : m.any fun q => q.1 = k
  · rw [if_pos (by simp [ha]), if_pos ha]
    simp [hp]
  · rw [if_neg (by simp [hp, ha]), if_neg ha]
    simp

/-- C10: `TwoDAImporter::import` stores rows in a key→values map whose
insert replaces the value of an existing key, so of several data rows
with the same leading key only the last survives, other keys are
untouched, the row count grows only for fresh keys, and on the concrete
two-row file `exTwoDA` (both rows keyed `"A"`) the result holds the one
entry `("A", ["2"])` from the second row. -/
theorem twoDA_duplicate_keys_last_wins :
    (∀ (m : List (List Nat × List (List Nat))) (k : List Nat)
       (v : List (List Nat)), mapLookup (mapInsert m k v) k = some v)
    ∧ (∀ (m : List (List Nat × List (List Nat))) (k k' : List Nat)
       (v : List (List Nat)), k' ≠ k →
        mapLookup (mapInsert m k v) k' = mapLookup m k')
    ∧ (∀ (m : List (List Nat × List (List Nat))) (k : List Nat)
       (v : List (List Nat)), (mapInsert m k v).length =
        if m.any (fun p => p.1 = k) then m.length else m.length + 1)
    ∧ (TwoDAImporter.import' ⟨exTwoDA, 0⟩).map (fun r => r.1.rows) =
        .ok [([65], [[50]])] := by
  refine ⟨?_, ?_, ?_, ?_⟩
  · intro m k v
    induction m with
    | nil => simp [mapInsert, mapLookup]
    | cons p m' ih =>
      by_cases hp : p.1 = k
      · unfold mapInsert
        rw [if_pos (by simp; exact .inl hp)]
        simp [mapLookup, hp]
      · rw [mapInsert_cons_ne p m' k v hp]
        unfold mapLookup at ih ⊢
        rw [List.find?_cons_of_neg _ (by simpa using hp)]
        exact ih
  · intro m k k' v hk
    unfold mapInsert mapLookup
    by_cases ha : m.any fun p => p.1 = k
    · rw [if_pos ha, find?_map_replace m k k' v hk]
    · rw [if_neg ha, find?_append_single m k k' v hk]
  · intro m k v
    by_cases ha : m.any fun p => p.1 = k
    · unfold mapInsert
      rw [if_pos ha, if_pos ha]
      simp
    · unfold mapInsert
      rw [if_neg ha, if_neg ha]
      simp
  · have step1 : TwoDAImporter.readRows [4] [48] [] ⟨exTwoDA, 17⟩ =
        TwoDAImporter.readRows [4] [48] [([65], [[49]])] ⟨exTwoDA, 23⟩ := by
      conv_lhs => rw [TwoDAImporter.readRows.eq_def]
      rfl
    have step2 : TwoDAImporter.readRows [4] [48] [([65], [[49]])]
        ⟨exTwoDA, 23⟩ =
        TwoDAImporter.readRows [4] [48] [([65], [[50]])] ⟨exTwoDA, 29⟩ := by
      conv_lhs => rw [TwoDAImporter.readRows.eq_def]
      rfl
    have step3 : TwoDAImporter.readRows [4] [48] [([65], [[50]])]
        ⟨exTwoDA, 29⟩ =
        .ok ([([65], [[50]])], ⟨exTwoDA, 29⟩) := by
      conv_lhs => rw [TwoDAImporter.readRows.eq_def]
      rfl
    have htail : TwoDAImporter.readRows [4] [48] [] ⟨exTwoDA, 17⟩ =
        .ok ([([65], [[50]])], ⟨exTwoDA, 29⟩) := by
      rw [step1, step2, step3]
    have himp : TwoDAImporter.import' ⟨exTwoDA, 0⟩ =
        (TwoDAImporter.readRows [4] [48] [] ⟨exTwoDA, 17⟩).bind fun rs =>
          .ok ({ headers := [[86]], columns := [4], rows := rs.1 }, rs.2) :=
      rfl
    rw [himp, htail]
    rfl

/-- C4: the KEY parser reads `v0` at `bif_offset` and `v1` at
`bif_offset + 4` and selects the 8-byte BIF-entry layout (no
`file_size`) exactly when `v0 - bif_offset == bif_count * 8` and
`v1 - bif_offset != bif_count * 12` (the second read happens only when
the first equation holds, by `&&` short-circuit); a demo entry consumes
8 bytes and has `file_size = none`, any other entry consumes 12 bytes
and records its first `u32` as `file_size`. -/
theorem key_demo_detection_and_layout :
    (∀ (boff bsize v0 v1 : Nat) (s s1 s2 : ReaderState),
      Reader.read_u32_at boff s = .ok (v0, s1) →
      Reader.read_u32_at (boff + 4) s1 = .ok (v1, s2) →
      boff ≤ v0 → boff ≤ v1 → bsize * 12 < 4294967296 →
      Key.checkDemo boff bsize s =
        if v0 - boff = bsize * 8 then
          .ok (decide (v1 - boff ≠ bsize * 12), s2)
        else .ok (false, s1))
    ∧ (∀ (find : List Nat → Option (List Nat)) (idx : Nat)
        (s s' : ReaderState) (e : BifEntry),
        BifEntry.read_entry find idx true s = .ok (e, s') →
        e.file_size = none ∧ s'.pos = s.pos + 8 ∧ s'.data = s.data)
    ∧ (∀ (find : List Nat → Option (List Nat)) (idx : Nat)
        (s s' : ReaderState) (e : BifEntry),
        BifEntry.read_entry find idx false s = .ok (e, s') →
        e.file_size = some (Reader.leVal ((s.data.drop s.pos).take 4))
        ∧ s'.pos = s.pos + 12 ∧ s'.data = s.data) := by
  refine ⟨?_, ?_, ?_⟩
  · intro boff bsize v0 v1 s s1 s2 h0 h1 hv0 hv1 hm
    unfold Key.checkDemo
    rw [h0]
    simp only [RRes.bind_ok]
    rw [checkedSub_le hv0]
    simp only [RRes.bind_ok]
    have hm8 : checkedMulU32 bsize 0x8 = .ok (bsize * 8) := by
      unfold checkedMulU32
      rw [if_pos (by omega)]
    rw [hm8]
    simp only [RRes.bind_ok]
    by_cases hd : v0 - boff = bsize * 8
    · rw [if_pos hd, if_pos hd, h1]
      simp only [RRes.bind_ok]
      rw [checkedSub_le hv1]
      simp only [RRes.bind_ok]
      have hm12 : checkedMulU32 bsize 0xc = .ok (bsize * 12) := by
        unfold checkedMulU32
        rw [if_pos (by omega)]
      rw [hm12]
      simp only [RRes.bind_ok]
    · rw [if_neg hd, if_neg hd]
  · intro find idx s s' e h
    unfold BifEntry.read_entry at h
    rw [if_neg (by simp)] at h
    simp only [RRes.bind_ok] at h
    obtain ⟨⟨so, s2⟩, hso, h⟩ := RRes.bind_eq_ok h
    obtain ⟨hsov, hs2, -⟩ := Reader.read_u32_ok hso
    subst hs2
    obtain ⟨⟨sl, s3⟩, hsl, h⟩ := RRes.bind_eq_ok h
    obtain ⟨hslv, hs3, -⟩ := Reader.read_u16_ok hsl
    subst hs3
    obtain ⟨⟨loc, s4⟩, hloc, h⟩ := RRes.bind_eq_ok h
    obtain ⟨hlocv, hs4, -⟩ := Reader.read_u16_ok hloc
    subst hs4
    simp only [Reader.position, RRes.bind_ok] at h
    obtain ⟨nl, hnl, h⟩ := RRes.bind_eq_ok h
    simp only [Reader.read_string_at, Reader.set_position, Reader.read_string,
      RRes.bind_ok] at h
    cases h
    refine ⟨rfl, by simp, by simp⟩
  · intro find idx s s' e h
    unfold BifEntry.read_entry at h
    rw [if_pos rfl] at h
    obtain ⟨⟨fsz, s1⟩, hfsz, h⟩ := RRes.bind_eq_ok h
    obtain ⟨⟨v, s1'⟩, hv, hfsz'⟩ := RRes.map_eq_ok hfsz
    obtain ⟨hvv, hs1', -⟩ := Reader.read_u32_ok hv
    cases hfsz'
    subst hs1'
    obtain ⟨⟨so, s2⟩, hso, h⟩ := RRes.bind_eq_ok h
    obtain ⟨hsov, hs2, -⟩ := Reader.read_u32_ok hso
    subst hs2
    obtain ⟨⟨sl, s3⟩, hsl, h⟩ := RRes.bind_eq_ok h
    obtain ⟨hslv, hs3, -⟩ := Reader.read_u16_ok hsl
    subst hs3
    obtain ⟨⟨loc, s4⟩, hloc, h⟩ := RRes.bind_eq_ok h
    obtain ⟨hlocv, hs4, -⟩ := Reader.read_u16_ok hloc
    subst hs4
    simp only [Reader.position, RRes.bind_ok] at h
    obtain ⟨nl, hnl, h⟩ := RRes.bind_eq_ok h
    simp only [Reader.read_string_at, Reader.set_position, Reader.read_string,
      RRes.bind_ok] at h
    cases h
    subst hvv
    refine ⟨rfl, by simp, by simp⟩

/-- Witness for C4: the detection on `exKey` (layout relation holds with
`v0 = 16`, `v1 = 21`, `bif_offset = 8`, `bif_count = 1`), an 8-byte
entry on `exEntry`, and a 12-byte entry on `exEntry12`. -/
theorem key_demo_detection_and_layout_witness :
    (Key.checkDemo 8 1 ⟨exKey, 0⟩ =
      if 16 - 8 = 1 * 8 then
        .ok (decide (21 - 8 ≠ 1 * 12), ⟨exKey, 16⟩)
      else .ok (false, ⟨exKey, 12⟩))
    ∧ (∀ e s', BifEntry.read_entry (fun _ => some [120]) 0 true
          ⟨exEntry, 0⟩ = .ok (e, s') → e.file_size = none ∧ s'.pos = 0 + 8
          ∧ s'.data = exEntry)
    ∧ (∀ e s', BifEntry.read_entry (fun _ => some [120]) 0 false
          ⟨exEntry12, 0⟩ = .ok (e, s') →
          e.file_size = some (Reader.leVal ((exEntry12.drop 0).take 4))
          ∧ s'.pos = 0 + 12 ∧ s'.data = exEntry12) :=
  ⟨key_demo_detection_and_layout.1 8 1 16 21 ⟨exKey, 0⟩ ⟨exKey, 12⟩
      ⟨exKey, 16⟩ rfl rfl (by decide) (by decide) (by decide),
   fun e s' h => key_demo_detection_and_layout.2.1 _ 0 _ s' e h,
   fun e s' h => key_demo_detection_and_layout.2.2 _ 0 _ s' e h⟩

/-- C5: for a BIF V1.0 or BIFC V1.0 input whose inflated body carries
the `BIFFV1` signature, the importer raises a decode error when the
inflated `files_offset` is below 20, and otherwise skips exactly
`files_offset - 20` bytes of the inflated stream, so that the file and
tileset entries are read starting at position `files_offset`. -/
theorem bif_files_offset_guard :
    ∀ (body : List Nat),
      Reader.stripTrailingNuls ((body.take 8).map (· % 256)) =
        BIFFV1_SIGNATURE →
      20 ≤ body.length →
      (leU32At body 16 < 20 →
        BifParser.importBody body =
          .err ("Invalid decompressed BIFF header offset: "
            ++ Nat.repr (leU32At body 16))
        ∧ BifcParser.importBody body =
          .err ("Invalid decompressed BIFF header offset: "
            ++ Nat.repr (leU32At body 16)))
      ∧ (20 ≤ leU32At body 16 → leU32At body 16 ≤ body.length →
        BifParser.importBody body =
          BifParser.entriesPhase (leU32At body 8) (leU32At body 12)
            ⟨body, leU32At body 16⟩
        ∧ BifcParser.importBody body =
          BifcParser.entriesPhase (leU32At body 8) (leU32At body 12)
            ⟨body, leU32At body 16⟩) := by
  intro body hstrip hlen
  have h2 : min (0 + 8) body.length = 8 := by omega
  have hstrip' : Reader.stripTrailingNuls
      ((body.map (· % 256)).take 8) = BIFFV1_SIGNATURE := by
    rw [← List.map_take]; exact hstrip
  have hsig : Reader.read_string 8 ⟨body, 0⟩ =
      .ok (BIFFV1_SIGNATURE, ⟨body, 8⟩) := by
    simp [Reader.read_string, h2, hstrip']
  have hread8 : Reader.read_u32 ⟨body, 8⟩ =
      .ok (leU32At body 8, ⟨body, 12⟩) :=
    Reader.read_u32_of_le (s := ⟨body, 8⟩) (by simp; omega)
  have hread12 : Reader.read_u32 ⟨body, 12⟩ =
      .ok (leU32At body 12, ⟨body, 16⟩) :=
    Reader.read_u32_of_le (s := ⟨body, 12⟩) (by simp; omega)
  have hread16 : Reader.read_u32 ⟨body, 16⟩ =
      .ok (leU32At body 16, ⟨body, 20⟩) :=
    Reader.read_u32_of_le (s := ⟨body, 16⟩) (by simp; omega)
  constructor
  · intro hlt
    constructor
    · rw [BifParser.importBody, hsig]
      simp only [RRes.bind_ok]
      rw [if_neg (by simp), hread8]
      simp only [RRes.bind_ok]
      rw [hread12]
      simp only [RRes.bind_ok]
      rw [hread16]
      simp only [RRes.bind_ok]
      rw [if_pos hlt]
    · rw [BifcParser.importBody, hsig]
      simp only [RRes.bind_ok]
      rw [if_neg (by simp), hread8]
      simp only [RRes.bind_ok]
      rw [hread12]
      simp only [RRes.bind_ok]
      rw [hread16]
      simp only [RRes.bind_ok]
      rw [if_pos hlt]
  · intro hge hle
    have hskip : Reader.skip (leU32At body 16 - 20) ⟨body, 20⟩ =
        .ok ((), ⟨body, leU32At body 16⟩) := by
      have h := Reader.skip_of_le (n := leU32At body 16 - 20)
        (s := ⟨body, 20⟩) (by simp; omega)
      have h20 : 20 + (leU32At body 16 - 20) = leU32At body 16 := by omega
      rw [h]
      simp only [h20]
    constructor
    · rw [BifParser.importBody, hsig]
      simp only [RRes.bind_ok]
      rw [if_neg (by simp), hread8]
      simp only [RRes.bind_ok]
      rw [hread12]
      simp only [RRes.bind_ok]
      rw [hread16]
      simp only [RRes.bind_ok]
      rw [if_neg (by omega), hskip]
      simp only [RRes.bind_ok]
    · rw [BifcParser.importBody, hsig]
      simp only [RRes.bind_ok]
      rw [if_neg (by simp), hread8]
      simp only [RRes.bind_ok]
      rw [hread12]
      simp only [RRes.bind_ok]
      rw [hread16]
      simp only [RRes.bind_ok]
      rw [if_neg (by omega), hskip]
      simp only [RRes.bind_ok]

/-- Witness for C5 on a concrete invalid body (`files_offset = 5`) and a
concrete valid one (`files_offset = 20`, no entries). -/
theorem bif_files_offset_guard_witness :
    (BifParser.importBody exBifBodyBad =
      .err ("Invalid decompressed BIFF header offset: " ++ Nat.repr 5)
      ∧ BifcParser.importBody exBifBodyBad =
      .err ("Invalid decompressed BIFF header offset: " ++ Nat.repr 5))
    ∧ (BifParser.importBody exBifBody =
        BifParser.entriesPhase 0 0 ⟨exBifBody, 20⟩
      ∧ BifcParser.importBody exBifBody =
        BifcParser.entriesPhase 0 0 ⟨exBifBody, 20⟩) :=
  ⟨(bif_files_offset_guard exBifBodyBad (by decide) (by decide)).1
      (by decide),
   (bif_files_offset_guard exBifBody (by decide) (by decide)).2
      (by decide) (by decide)⟩

/-- Witness for C6 at a concrete rejected stream (`pixel_format = 9`)
and a concrete accepted one (`pixel_format = 7`). -/
theorem pvrz_pixel_format_rejection_witness :
    PvrzImporter.import' id ⟨exPvrBad, 0⟩ =
      .err ("Unexpected pixel_format: " ++ Nat.repr 9)
    ∧ ∃ h z, PvrzImporter.import' id ⟨exPvrGood, 0⟩ = .ok (h, z)
        ∧ h.pixel_format = .DXT1 :=
  ⟨(pvrz_pixel_format_rejection id ⟨exPvrBad, 0⟩ (exPvrBad.drop 4) 9
      rfl (by decide) (by decide) (by decide)).1 (by decide) (by decide),
   ((pvrz_pixel_format_rejection id ⟨exPvrGood, 0⟩ (exPvrGood.drop 4) 7
      rfl (by decide) (by decide) (by decide)).2 (by decide)).1 rfl⟩

end Infinitier
